import Mathlib

/-!
Shallow embedding of the crawl / draft-ingestion pipeline of the `ambitful_api`
repository (TypeScript), together with proofs about the claims of its
specification.

Conventions of the embedding:
* Timestamps are milliseconds since the Unix epoch, as `Int` (ECMAScript
  `Date.getTime()`), with the process timezone taken to be UTC, so the local
  `new Date(y, m, d)` constructor and the UTC interpretation of ISO strings
  agree.
* JavaScript `undefined`/`null` for a field is `Option.none`; JavaScript
  string falsiness (`undefined`, `null` and `""` are falsy) is made explicit
  where the source relies on it.
* Fallible operations (database access, HTTP fetch, LLM extraction) are
  `Except String` values; an injected environment supplies the outcomes of
  external calls, and `try`/`catch` in the source becomes a `match` on the
  `Except`.
-/

namespace Ambitful

/-- Milliseconds since the Unix epoch (`Date.getTime()`). -/
abbrev Time := Int

/-- Milliseconds in one day (`24 * 60 * 60 * 1000`). -/
def msPerDay : Int := 24 * 60 * 60 * 1000

/-- JavaScript `String.prototype.trim` (after stripping whitespace on both
sides), written over character lists so that it evaluates by kernel
reduction. -/
def jsTrim (s : String) : String :=
  String.mk (((s.toList.dropWhile (·.isWhitespace)).reverse.dropWhile
    (·.isWhitespace)).reverse)

/-- The `slice(0, n)` on a string, by characters (the messages truncated in this
development are ASCII, so code-unit and character counts agree). -/
def strTake (s : String) (n : Nat) : String :=
  String.mk (s.toList.take n)

/-- Split a character list at a separator character, JavaScript
`String.prototype.split` style (`"a/b" → ["a","b"]`, separators at the ends
produce empty pieces). -/
def splitOnChar (sep : Char) : List Char → List (List Char)
  | [] => [[]]
  | c :: rest =>
    if c == sep then [] :: splitOnChar sep rest
    else
      match splitOnChar sep rest with
      | g :: gs => (c :: g) :: gs
      | [] => [[c]]

/-- JavaScript `a || b` for an optional string: `undefined`, `null` and the
empty string are falsy. -/
def jsOrStr (a : Option String) (b : String) : String :=
  match a with
  | some s => if s.isEmpty then b else s
  | none => b

/-- JavaScript `a || b` where both sides are optional strings. -/
def jsOrOptStr (a b : Option String) : Option String :=
  match a with
  | some s => if s.isEmpty then b else some s
  | none => b

/-- JavaScript truthiness of an optional string. -/
def strTruthy (a : Option String) : Bool :=
  match a with
  | some s => !s.isEmpty
  | none => false

-- ─────────────────────────────────────────────────────────────────────────────
-- CrawlSource data model (src/services/crawl-source-service.ts, prisma schema)
-- ─────────────────────────────────────────────────────────────────────────────

/-- The `frequency ∈ {DAILY, WEEKLY, MONTHLY}` of a `CrawlSource`. -/
inductive Frequency
  | DAILY
  | WEEKLY
  | MONTHLY
deriving DecidableEq, Repr

/-- The `CrawlSourceStatus` enum (`ACTIVE`, `INACTIVE`, `ERROR`). -/
inductive CrawlSourceStatus
  | ACTIVE
  | INACTIVE
  | ERROR
deriving DecidableEq, Repr

/-- A `CrawlSource` record. `opportunitiesFound` is `number | null` in the
schema, `lastCrawledAt` and `errorMessage` are nullable. -/
structure CrawlSource where
  id : String
  url : String
  frequency : Frequency
  scraperType : String
  status : CrawlSourceStatus
  isActive : Bool
  isDetailsCrawled : Bool
  lastCrawledAt : Option Time
  nextCrawlAt : Time
  opportunitiesFound : Option Int
  errorMessage : Option String
deriving DecidableEq, Repr

/-- The `calculateNextCrawlTime` (crawl-source-service.ts): next crawl time from
`new Date()` plus the frequency interval (DAILY +1 day, WEEKLY +7 days,
MONTHLY +30 days). -/
def calculateNextCrawlTime (now : Time) (frequency : Frequency) : Time :=
  match frequency with
  | .DAILY => now + 24 * 60 * 60 * 1000
  | .WEEKLY => now + 7 * 24 * 60 * 60 * 1000
  | .MONTHLY => now + 30 * 24 * 60 * 60 * 1000

/-- Field update of `updateCrawlSourceStatus` (crawl-queue-service.ts): set
`status`, stamp `lastCrawledAt`, clear `errorMessage`. -/
def updateCrawlSourceStatusFields (now : Time) (status : CrawlSourceStatus)
    (s : CrawlSource) : CrawlSource :=
  { s with status := status, lastCrawledAt := some now, errorMessage := none }

/-- Field update of `updateCrawlSourceSuccess` (crawl-queue-service.ts): set
`status` to `INACTIVE`, add `foundCount` to the `opportunitiesFound` value of
the snapshot `read` taken at job start (`crawlSource.opportunitiesFound || 0`),
stamp `lastCrawledAt`.  Note that `nextCrawlAt` is not among the updated
fields. -/
def updateCrawlSourceSuccessFields (now : Time) (read : CrawlSource)
    (foundCount : Int) (s : CrawlSource) : CrawlSource :=
  { s with
    status := .INACTIVE
    opportunitiesFound := some ((read.opportunitiesFound.getD 0) + foundCount)
    lastCrawledAt := some now }

/-- Field update of `updateCrawlSourceError` (crawl-queue-service.ts): set
`status` to `ERROR` and `errorMessage` to the message truncated by
`errorMessage.slice(0, 500)`. -/
def updateCrawlSourceErrorFields (errorMessage : String)
    (s : CrawlSource) : CrawlSource :=
  { s with status := .ERROR, errorMessage := some (strTake errorMessage 500) }

-- ─────────────────────────────────────────────────────────────────────────────
-- ECMAScript Date model (platform primitive used by parse-deadline.ts).
-- The process timezone is taken to be UTC, so local and UTC dates coincide.
-- ─────────────────────────────────────────────────────────────────────────────

/-- Days since 1970-01-01 of a proleptic-Gregorian civil date, by the standard
civil-calendar algorithm (C-style truncating division, as in the reference
`days_from_civil`). `m` is 1-based. -/
def daysFromCivil (y m d : Int) : Int :=
  let y : Int := if m ≤ 2 then y - 1 else y
  let era : Int := (if 0 ≤ y then y else y - 399) / 400
  let yoe : Int := y - era * 400
  let mp : Int := (m + 9) % 12
  let doy : Int := (153 * mp + 2) / 5 + d - 1
  let doe : Int := yoe * 365 + yoe / 4 - yoe / 100 + doy
  era * 146097 + doe - 719468

/-- ECMAScript `MakeDay`: day number of `new Date(year, month, day)` with
0-based `month`, rolling excess months over into years. -/
def makeDay (year month day : Int) : Int :=
  let ym : Int := year + Int.fdiv month 12
  let mn : Int := Int.emod month 12
  daysFromCivil ym (mn + 1) 1 + (day - 1)

/-- The `new Date(year, month, day).getTime()` (0-based month, timezone UTC). -/
def jsDateYMD (year month day : Int) : Time :=
  makeDay year month day * msPerDay

/-- The `getTime()` of the UTC midnight of a civil date (1-based month). -/
def utcDate (y m d : Int) : Time :=
  daysFromCivil y m d * msPerDay

/-- Whether `y` is a Gregorian leap year. -/
def isLeapYear (y : Int) : Bool :=
  (y % 4 == 0 && y % 100 != 0) || y % 400 == 0

/-- Number of days of a month (1-based). -/
def daysInMonth (y m : Int) : Int :=
  if m == 2 then (if isLeapYear y then 29 else 28)
  else if m == 4 || m == 6 || m == 9 || m == 11 then 30
  else 31

-- ─────────────────────────────────────────────────────────────────────────────
-- Model of the ECMAScript/V8 `new Date(string)` parser.
-- ─────────────────────────────────────────────────────────────────────────────

/-- Digits of a character run, as a number, if the run is all digits. -/
def digitsToNat (cs : List Char) : Option Nat :=
  if cs.isEmpty then none
  else if cs.all (·.isDigit) then
    some (cs.foldl (fun acc c => acc * 10 + (c.toNat - 48)) 0)
  else none

/-- Lowercase month names in calendar order, for 0-based lookup. -/
def monthNames : List String :=
  ["january", "february", "march", "april", "may", "june",
   "july", "august", "september", "october", "november", "december"]

/-- The 0-based position of a string in a list. -/
def indexOfStr (w : String) : List String → Option Nat
  | [] => none
  | x :: rest => if x == w then some 0 else (indexOfStr w rest).map (· + 1)

/-- The 0-based index of a (lowercased) full month name (the `months` lookup
object). -/
def monthIndexOfWord (w : String) : Option Nat :=
  indexOfStr (String.mk (w.toList.map Char.toLower)) monthNames

/-- One lexical token of the legacy date grammar. -/
inductive DateToken
  | num (n : Nat)
  | word (w : String)
deriving DecidableEq, Repr

/-- Tokenize a legacy (non-ISO) date string into digit runs and letter runs,
accepting only spaces and commas as separators; any other character rejects
the string (`none`), as V8's legacy parser does for the inputs at issue. -/
def legacyTokenize (fuel : Nat) (cs : List Char) (acc : List Char)
    (isWord : Bool) (out : List DateToken) : Option (List DateToken) :=
  match fuel with
  | 0 => none
  | fuel + 1 =>
    let flush : Option (List DateToken) :=
      if acc.isEmpty then some out
      else if isWord then some (out ++ [.word (String.mk acc)])
      else (digitsToNat acc).map (fun n => out ++ [.num n])
    match cs with
    | [] => flush
    | c :: rest =>
      if c.isAlpha then
        if acc.isEmpty || isWord then
          legacyTokenize fuel rest (acc ++ [c]) true out
        else
          match flush with
          | some out2 => legacyTokenize fuel rest [c] true out2
          | none => none
      else if c.isDigit then
        if acc.isEmpty || !isWord then
          legacyTokenize fuel rest (acc ++ [c]) false out
        else
          match flush with
          | some out2 => legacyTokenize fuel rest [c] false out2
          | none => none
      else if c == ' ' || c == ',' then
        match flush with
        | some out2 => legacyTokenize fuel rest [] false out2
        | none => none
      else none

/-- Legacy (non-ISO) portion of the V8 `Date` parser, modelled for the shapes
`parseDeadline` exercises: `<day> <MonthName> <year>` and
`<MonthName> <day>, <year>` parse to local (= UTC here) midnight; a string
containing an unrecognized alphabetic token (such as an ordinal suffix
`th` or the word `garbage`) is Invalid Date; a `<n>/<n>/<n>` string is read
month-first and is Invalid Date when the first number exceeds 12. -/
def legacyDateParse (s : String) : Option Time :=
  let cs := s.toList
  if cs.contains '/' then
    match splitOnChar '/' s.toList |>.map digitsToNat with
    | [some m, some d, some y] =>
      if 1 ≤ m && m ≤ 12 && 1 ≤ d && (d : Int) ≤ daysInMonth (y : Int) (m : Int)
      then some (jsDateYMD (y : Int) ((m : Int) - 1) (d : Int))
      else none
    | _ => none
  else
    match legacyTokenize (cs.length + 1) cs [] false [] with
    | none => none
    | some toks =>
      match toks with
      | [.num d, .word w, .num y] =>
        match monthIndexOfWord w with
        | some m =>
          if 1 ≤ d && d ≤ 31 && 1000 ≤ y then
            some (jsDateYMD (y : Int) (m : Int) (d : Int))
          else none
        | none => none
      | [.word w, .num d, .num y] =>
        match monthIndexOfWord w with
        | some m =>
          if 1 ≤ d && d ≤ 31 && 1000 ≤ y then
            some (jsDateYMD (y : Int) (m : Int) (d : Int))
          else none
        | none => none
      | _ => none

/-- ISO `YYYY-MM-DD` date-only form of the ECMAScript Date Time String Format,
interpreted as UTC midnight; out-of-range components are Invalid Date. -/
def isoDateParse (s : String) : Option Time :=
  match splitOnChar '-' s.toList |>.map (fun p => (p.length, digitsToNat p)) with
  | [(4, some y), (2, some m), (2, some d)] =>
    if 1 ≤ m && m ≤ 12 && 1 ≤ d && (d : Int) ≤ daysInMonth (y : Int) (m : Int)
    then some (utcDate (y : Int) (m : Int) (d : Int))
    else none
  | _ => none

/-- Model of the platform `new Date(string)` parser (a host primitive, not
repository code), restricted to the input space `parseDeadline` feeds it: ISO
date-only strings parse as UTC, the legacy forms above parse as local time,
and everything else is Invalid Date. -/
def nativeDateParse (s : String) : Option Time :=
  match isoDateParse s with
  | some t => some t
  | none => legacyDateParse s

-- ─────────────────────────────────────────────────────────────────────────────
-- parseDeadline (src/utils/parse-deadline.ts)
-- ─────────────────────────────────────────────────────────────────────────────

/-- First `some` produced by `f` over a list of alternatives (regex
alternation / backtracking order). -/
def firstSome : List α → (α → Option β) → Option β
  | [], _ => none
  | a :: as, f => (f a) <|> firstSome as f

/-- Leftmost-match scan of an unanchored regex: try the matcher at every
start position, left to right. -/
def scanFor (m : List Char → Option β) : List Char → Option β
  | [] => m []
  | c :: cs => (m (c :: cs)) <|> scanFor m cs

/-- The `\s+`: at least one whitespace character, consumed greedily. -/
def wsPlus (cs : List Char) : Option (List Char) :=
  match cs with
  | c :: rest => if c.isWhitespace then some (rest.dropWhile (·.isWhitespace)) else none
  | [] => none

/-- The `(\d{1,2})`: candidate matches in greedy order (two digits first). -/
def digits1or2 (cs : List Char) : List (Nat × List Char) :=
  match cs with
  | c1 :: c2 :: rest =>
    if c1.isDigit && c2.isDigit then
      [((c1.toNat - 48) * 10 + (c2.toNat - 48), rest), (c1.toNat - 48, c2 :: rest)]
    else if c1.isDigit then [(c1.toNat - 48, c2 :: rest)]
    else []
  | [c1] => if c1.isDigit then [(c1.toNat - 48, [])] else []
  | [] => []

/-- The `(\d{4})`: exactly four digits. -/
def digits4 (cs : List Char) : Option (Nat × List Char) :=
  match cs with
  | c1 :: c2 :: c3 :: c4 :: rest =>
    if c1.isDigit && c2.isDigit && c3.isDigit && c4.isDigit then
      some (((c1.toNat - 48) * 10 + (c2.toNat - 48)) * 100 +
            (c3.toNat - 48) * 10 + (c4.toNat - 48), rest)
    else none
  | _ => none

/-- Case-insensitive literal: remaining input after the pattern, if it is a
prefix. -/
def litCI : List Char → List Char → Option (List Char)
  | [], cs => some cs
  | _, [] => none
  | p :: ps, c :: cs => if p.toLower == c.toLower then litCI ps cs else none

/-- The `(January|February|…|December)` with the `i` flag: 0-based month index and
remaining input, alternatives tried in the order they appear in the regex. -/
def matchMonthName (cs : List Char) : Option (Nat × List Char) :=
  firstSome monthNames.enum fun (idx, name) =>
    (litCI name.toList cs).map (fun rest => (idx, rest))

/-- The `/(\d{1,2})\s+(Month)\s+(\d{4})/i` at one position: (day, month, year). -/
def tryFormat0At (cs : List Char) : Option (Nat × Nat × Nat) :=
  firstSome (digits1or2 cs) fun (d, r1) => do
    let r2 ← wsPlus r1
    let (m, r3) ← matchMonthName r2
    let r4 ← wsPlus r3
    let (y, _) ← digits4 r4
    pure (d, m, y)

/-- The `(?:st|nd|rd|th)?` then `,?` then `\s+` then `(\d{4})`, with the optional
pieces taken greedily but backtracked if the tail fails. -/
def ordinalCommaYear (cs : List Char) : Option Nat :=
  let afterSuffix : List (List Char) :=
    match firstSome [['s','t'], ['n','d'], ['r','d'], ['t','h']]
        (fun suf => litCI suf cs) with
    | some rest => [rest, cs]
    | none => [cs]
  firstSome afterSuffix fun r1 =>
    let afterComma : List (List Char) :=
      match r1 with
      | ',' :: rest => [rest, r1]
      | _ => [r1]
    firstSome afterComma fun r2 => do
      let r3 ← wsPlus r2
      let (y, _) ← digits4 r3
      pure y

/-- The `/(Month)\s+(\d{1,2})(?:st|nd|rd|th)?,?\s+(\d{4})/i` at one position:
(month, day, year). -/
def tryFormat1At (cs : List Char) : Option (Nat × Nat × Nat) := do
  let (m, r1) ← matchMonthName cs
  let r2 ← wsPlus r1
  firstSome (digits1or2 r2) fun (d, r3) =>
    (ordinalCommaYear r3).map (fun y => (m, d, y))

/-- The `/(\d{1,2})\/(\d{1,2})\/(\d{4})/` at one position: (first, second, year). -/
def tryFormat2At (cs : List Char) : Option (Nat × Nat × Nat) :=
  firstSome (digits1or2 cs) fun (a, r1) =>
    match r1 with
    | '/' :: r2 =>
      firstSome (digits1or2 r2) fun (b, r3) =>
        match r3 with
        | '/' :: r4 => (digits4 r4).map (fun (y, _) => (a, b, y))
        | _ => none
    | _ => none

/-- The `/(\d{4})-(\d{1,2})-(\d{1,2})/` at one position: (year, month, day). -/
def tryFormat3At (cs : List Char) : Option (Nat × Nat × Nat) := do
  let (y, r1) ← digits4 cs
  match r1 with
  | '-' :: r2 =>
    firstSome (digits1or2 r2) fun (m, r3) =>
      match r3 with
      | '-' :: r4 => firstSome (digits1or2 r4) fun (d, _) => some (y, m, d)
      | _ => none
  | _ => none

/-- Date produced by the slash branch of `parseDeadline`: day/month first,
falling back to month/day when the range checks fail.  `new Date(y, m, d)`
with finite in-range components never yields Invalid Date (it rolls over), so
the source's `isNaN` guard reduces to the explicit `day > 31 || month > 11`
checks. -/
def format2Date (a b y : Nat) : Time :=
  let day : Int := a
  let month : Int := (b : Int) - 1
  if day > 31 || month > 11 then jsDateYMD y ((a : Int) - 1) b
  else jsDateYMD y month day

/-- The `parseDeadline` (parse-deadline.ts): native `new Date` parse first, then
the four explicit formats in order (each searched anywhere in the trimmed
string), then a final native-parse fallback; `null` on total failure. -/
def parseDeadline (deadline : Option String) : Option Time :=
  match deadline with
  | none => none
  | some dl =>
    let trimmed := jsTrim dl
    if trimmed.isEmpty then none
    else
      match nativeDateParse trimmed with
      | some t => some t
      | none =>
        let cs := trimmed.toList
        match scanFor tryFormat0At cs with
        | some (d, m, y) => some (jsDateYMD y m d)
        | none =>
        match scanFor tryFormat1At cs with
        | some (m, d, y) => some (jsDateYMD y m d)
        | none =>
        match scanFor tryFormat2At cs with
        | some (a, b, y) => some (format2Date a b y)
        | none =>
        match scanFor tryFormat3At cs with
        | some (y, m, d) => some (jsDateYMD y ((m : Int) - 1) d)
        | none => nativeDateParse trimmed

/-- The `DEFAULT_DEADLINE_DAYS` (crawl-queue-service.ts). -/
def DEFAULT_DEADLINE_DAYS : Int := 30

/-- The `parseDeadlineWithFallback` (crawl-queue-service.ts): the parsed deadline
when parsing succeeds (parsed dates of this model are always valid, so the
`isNaN` guard never fires), else now + 30 days. -/
def parseDeadlineWithFallback (now : Time) (scrapedDeadline : Option String) : Time :=
  match parseDeadline scrapedDeadline with
  | some t => t
  | none => now + DEFAULT_DEADLINE_DAYS * 24 * 60 * 60 * 1000

-- ─────────────────────────────────────────────────────────────────────────────
-- Listings, details and drafts (scrapers/base-scraper.ts, crawl-queue-service.ts)
-- ─────────────────────────────────────────────────────────────────────────────

/-- A listing entry (`OpportunityListing` of base-scraper.ts; handled as
`Record<string, any>` in `createAIDraft`, which additionally reads the
`excerpt`, `short_description` and `eligibility` keys). -/
structure Listing where
  opportunity_id : String
  title : Option String := none
  organization : Option String := none
  location : Option String := none
  deadline : Option String := none
  url : Option String := none
  excerpt : Option String := none
  short_description : Option String := none
  eligibility : Option (List String) := none
deriving DecidableEq, Repr

/-- The `OpportunityDetails` (base-scraper.ts).  The `rawData` debugging blob is
not modelled; no claim inspects it. -/
structure OpportunityDetails where
  id : String
  title : String
  organization : String
  description : String
  requirements : List String
  benefits : List String
  compensation : Option String := none
  compensationType : Option String := none
  locations : List String
  isRemote : Bool
  deadline : String
  applicationUrl : Option String := none
  contactEmail : Option String := none
  experienceLevel : Option String := none
  duration : Option String := none
  eligibility : List String
deriving DecidableEq, Repr

/-- The `AIDraftStatus` enum. -/
inductive DraftStatus
  | PENDING
  | APPROVED
  | REJECTED
  | PUBLISHED
deriving DecidableEq, Repr

/-- A persisted `AIDraft` record, with the fields `createAIDraft` writes.
The `rawScrapedData`/`rawData` blobs (JSON serializations of the inputs,
used only for debugging) are not modelled; no claim inspects them. -/
structure Draft where
  title : String
  organization : String
  description : String
  requirements : List String
  benefits : List String
  compensation : String
  compensationType : Option String
  locations : List String
  isRemote : Bool
  deadline : Time
  applicationUrl : String
  contactEmail : String
  experienceLevel : String
  duration : String
  eligibility : List String
  crawlSourceId : String
  sourceUrl : String
  status : DraftStatus
  isDetailsCrawled : Bool
deriving DecidableEq, Repr

/-- The draft store (`prisma.aIDraft`), with injected fault flags for the
persistence layer: when `failFind` (resp. `failCreate`) is set, the
`findFirst` (resp. `create`) call rejects. -/
structure DraftDB where
  drafts : List Draft
  failFind : Bool := false
  failCreate : Bool := false
deriving DecidableEq, Repr

/-- The `where` clause of the dedup lookup: same `sourceUrl` and
`crawlSourceId`. -/
def draftKeyMatches (sourceUrl crawlSourceId : String) (d : Draft) : Bool :=
  d.sourceUrl == sourceUrl && d.crawlSourceId == crawlSourceId

/-- The `prisma.aIDraft.findFirst({ where: { sourceUrl, crawlSourceId } })`. -/
def findFirstDraft (db : DraftDB) (sourceUrl crawlSourceId : String) :
    Except String (Option Draft) :=
  if db.failFind then .error "database error on findFirst"
  else .ok (db.drafts.find? (draftKeyMatches sourceUrl crawlSourceId))

/-- The `prisma.aIDraft.create({ data })`. -/
def createDraftRec (db : DraftDB) (d : Draft) : Except String DraftDB :=
  if db.failCreate then .error "database error on create"
  else .ok { db with drafts := db.drafts ++ [d] }

/-- The `AIDialogCreationData` (crawl-queue-service.ts).  `listing` is `none` when
the caller passes `undefined`; the id/url strings use JS falsiness (empty =
falsy). -/
structure AIDraftCreationData where
  listing : Option Listing
  details : Option OpportunityDetails := none
  crawlSourceId : String
  sourceUrl : String
  isDetailsCrawled : Bool
deriving DecidableEq, Repr

/-- The draft record assembled by `createAIDraft`, merging detail fields over
listing fields exactly as the source's `||` fallback chains do. -/
def buildDraft (listing : Listing) (details : Option OpportunityDetails)
    (crawlSourceId sourceUrl : String) (isDetailsCrawled : Bool)
    (deadline : Time) : Draft :=
  { title := jsOrStr (jsOrOptStr (details.map (·.title)) listing.title)
      "Untitled Opportunity"
    organization := jsOrStr
      (jsOrOptStr (details.map (·.organization)) listing.organization)
      "Unknown Organization"
    description := jsOrStr
      (jsOrOptStr (jsOrOptStr (details.map (·.description)) listing.excerpt)
        listing.short_description)
      "No description available"
    requirements := (details.map (·.requirements)).getD []
    benefits := (details.map (·.benefits)).getD []
    compensation := jsOrStr (details.bind (·.compensation)) ""
    compensationType :=
      let ct := details.bind (·.compensationType)
      if strTruthy ct then ct else none
    locations :=
      match details with
      | some d => d.locations
      | none =>
        match listing.location with
        | some l => if l.isEmpty then [] else [l]
        | none => []
    isRemote := (details.map (·.isRemote)).getD false
    deadline := deadline
    applicationUrl := jsOrStr
      (jsOrOptStr (details.bind (·.applicationUrl)) listing.url) sourceUrl
    contactEmail := jsOrStr (details.bind (·.contactEmail)) ""
    experienceLevel := jsOrStr (details.bind (·.experienceLevel)) "any"
    duration := jsOrStr (details.bind (·.duration)) ""
    eligibility :=
      match details with
      | some d => d.eligibility
      | none => listing.eligibility.getD []
    crawlSourceId := crawlSourceId
    sourceUrl := sourceUrl
    status := .PENDING
    isDetailsCrawled := isDetailsCrawled }

/-- The fallible body of `createAIDraft` (everything inside its `try`):
look up an existing draft by `(sourceUrl, crawlSourceId)`; if found, report
`false` without touching the store; otherwise parse the deadline and insert
the assembled draft. -/
def createAIDraftBody (now : Time) (db : DraftDB) (listing : Listing)
    (details : Option OpportunityDetails) (crawlSourceId sourceUrl : String)
    (isDetailsCrawled : Bool) : Except String (Bool × DraftDB) :=
  match findFirstDraft db sourceUrl crawlSourceId with
  | .error e => .error e
  | .ok (some _) => .ok (false, db)
  | .ok none =>
    let deadline := parseDeadlineWithFallback now
      (jsOrOptStr (details.map (·.deadline)) listing.deadline)
    match createDraftRec db
        (buildDraft listing details crawlSourceId sourceUrl isDetailsCrawled
          deadline) with
    | .error e => .error e
    | .ok db2 => .ok (true, db2)

/-- The `createAIDraft` (crawl-queue-service.ts): reports `false` when the input
is invalid (`!listing || !crawlSourceId || !sourceUrl`), catches every
persistence failure and reports `false` (leaving the store as it was at the
failure point), and otherwise returns the body's outcome. -/
def createAIDraft (now : Time) (db : DraftDB) (data : AIDraftCreationData) :
    Bool × DraftDB :=
  match data.listing with
  | none => (false, db)
  | some listing =>
    if data.crawlSourceId.isEmpty || data.sourceUrl.isEmpty then (false, db)
    else
      match createAIDraftBody now db listing data.details data.crawlSourceId
          data.sourceUrl data.isDetailsCrawled with
      | .ok r => r
      | .error _ => (false, db)

-- ─────────────────────────────────────────────────────────────────────────────
-- Fetcher (src/services/scraper-do-service.ts)
-- ─────────────────────────────────────────────────────────────────────────────

/-- The `Response<null | string>` instance field `this.response` of
`ScraperDoService`, shared by all `scrape` calls on the service instance. -/
structure ScraperResponse where
  data : Option String
  error : Option String
deriving DecidableEq, Repr

/-- The `this.response` as initialized in the class body: both fields `null`. -/
def scraperResponseInit : ScraperResponse := { data := none, error := none }

/-- External environment of one `scrape` call: the cache lookup result for
the target URL and the outcome of each successive HTTP attempt (`.ok` is the
axios response's `data`, possibly empty; `.error` is the thrown message). -/
structure ScrapeEnv where
  cached : Option String
  attempts : Nat → Except String String

/-- The `retries: 3` passed to `async-retry` (three retries after the initial
attempt). -/
def scrapeRetries : Nat := 3

/-- One attempt of the retry body: an axios failure propagates its message,
and a falsy (empty) `response.data` throws `'No data returned from
scraper.do'`. -/
def scrapeAttempt (env : ScrapeEnv) (k : Nat) : Except String String :=
  match env.attempts k with
  | .error e => .error e
  | .ok data => if data.isEmpty then .error "No data returned from scraper.do" else .ok data

/-- The `async-retry`: run attempts `k, k+1, …` until one succeeds, with
`remaining` retries left; when the budget is exhausted the last attempt's
error is rethrown. -/
def runRetry (env : ScrapeEnv) : Nat → Nat → Except String String
  | k, 0 => scrapeAttempt env k
  | k, remaining + 1 =>
    match scrapeAttempt env k with
    | .ok d => .ok d
    | .error _ => runRetry env (k + 1) remaining

/-- The `ScraperDoService.scrape`: a truthy cached value is copied into
`this.response.data` and returned as is (the `error` field is not touched);
otherwise the retry loop runs, a success clears `error` and stores the data,
and the outer `catch` stores the error message and returns `this.response`
(leaving `data` as it was) — the call itself never throws. -/
def scrape (st : ScraperResponse) (env : ScrapeEnv) : ScraperResponse :=
  match env.cached with
  | some cachedData =>
    if cachedData.isEmpty then
      match runRetry env 0 scrapeRetries with
      | .ok d => { st with error := none, data := some d }
      | .error e => { st with error := some e }
    else
      { st with data := some cachedData }
  | none =>
    match runRetry env 0 scrapeRetries with
    | .ok d => { st with error := none, data := some d }
    | .error e => { st with error := some e }

-- ─────────────────────────────────────────────────────────────────────────────
-- JSON values and JSON.parse (platform primitive used by clean-llm-json.ts)
-- ─────────────────────────────────────────────────────────────────────────────

/-- The opening brace character, written as an escape. -/
def lbrace : Char := '\x7b'

/-- The closing brace character, written as an escape. -/
def rbrace : Char := '\x7d'

/-- A parsed JSON value.  Numbers keep their validated lexeme: no code under
verification inspects a numeric value, and this avoids modelling binary
floating point. -/
inductive Json
  | null
  | bool (b : Bool)
  | num (lexeme : String)
  | str (s : String)
  | arr (elems : List Json)
  | obj (fields : List (String × Json))

/-- JSON insignificant whitespace (space, tab, line feed, carriage return). -/
def jsonWsChar (c : Char) : Bool :=
  c == ' ' || c == '\t' || c == '\n' || c == '\r'

/-- Hex digit value. -/
def hexVal (c : Char) : Option Nat :=
  if c.isDigit then some (c.toNat - 48)
  else if 'a' ≤ c.toLower && c.toLower ≤ 'f' then some (c.toLower.toNat - 87)
  else none

/-- JSON string body after the opening quote: characters up to the closing
quote, decoding escapes; raw control characters are a syntax error. -/
def parseJsonStringAux (fuel : Nat) (cs : List Char) (acc : List Char) :
    Except String (String × List Char) :=
  match fuel, cs with
  | 0, _ => .error "string fuel exhausted"
  | _, [] => .error "Unterminated string in JSON"
  | fuel + 1, c :: rest =>
    if c == '"' then .ok (String.mk acc, rest)
    else if c == '\\' then
      match rest with
      | [] => .error "Unterminated string in JSON"
      | e :: rest2 =>
        if e == '"' || e == '\\' || e == '/' then
          parseJsonStringAux fuel rest2 (acc ++ [e])
        else if e == 'b' then parseJsonStringAux fuel rest2 (acc ++ ['\x08'])
        else if e == 'f' then parseJsonStringAux fuel rest2 (acc ++ ['\x0c'])
        else if e == 'n' then parseJsonStringAux fuel rest2 (acc ++ ['\n'])
        else if e == 'r' then parseJsonStringAux fuel rest2 (acc ++ ['\r'])
        else if e == 't' then parseJsonStringAux fuel rest2 (acc ++ ['\t'])
        else if e == 'u' then
          match rest2 with
          | h1 :: h2 :: h3 :: h4 :: rest3 =>
            match hexVal h1, hexVal h2, hexVal h3, hexVal h4 with
            | some v1, some v2, some v3, some v4 =>
              parseJsonStringAux fuel rest3
                (acc ++ [Char.ofNat (((v1 * 16 + v2) * 16 + v3) * 16 + v4)])
            | _, _, _, _ => .error "Bad Unicode escape in JSON"
          | _ => .error "Bad Unicode escape in JSON"
        else .error "Bad escaped character in JSON"
    else if c.toNat < 32 then .error "Bad control character in JSON string"
    else parseJsonStringAux fuel rest (acc ++ [c])

/-- JSON number lexeme at the head of the input (sign, integer part, optional
fraction, optional exponent), with the remaining input. -/
def numberLexeme (cs : List Char) : Option (List Char × List Char) :=
  let (sign, r1) :=
    match cs with
    | '-' :: r => (['-'], r)
    | _ => ([], cs)
  let intPart : Option (List Char × List Char) :=
    match r1 with
    | '0' :: r => some (['0'], r)
    | c :: _ =>
      if c.isDigit then some (r1.takeWhile (·.isDigit), r1.dropWhile (·.isDigit))
      else none
    | [] => none
  match intPart with
  | none => none
  | some (ip, r2) =>
    let fracPart : Option (List Char × List Char) :=
      match r2 with
      | '.' :: d :: _ =>
        if d.isDigit then
          some ('.' :: (r2.drop 1).takeWhile (·.isDigit),
                (r2.drop 1).dropWhile (·.isDigit))
        else none
      | _ => some ([], r2)
    match fracPart with
    | none => none
    | some (fp, r3) =>
      let expPart : Option (List Char × List Char) :=
        match r3 with
        | e :: r4 =>
          if e == 'e' || e == 'E' then
            let (es, r5) :=
              match r4 with
              | '+' :: r => (['+'], r)
              | '-' :: r => (['-'], r)
              | _ => ([], r4)
            match r5 with
            | d :: _ =>
              if d.isDigit then
                some (e :: es ++ r5.takeWhile (·.isDigit), r5.dropWhile (·.isDigit))
              else none
            | [] => none
          else some ([], r3)
        | [] => some ([], r3)
      match expPart with
      | none => none
      | some (ep, r6) => some (sign ++ ip ++ fp ++ ep, r6)

mutual

/-- One JSON value at the head of the input (after leading whitespace). -/
def parseJsonValue (fuel : Nat) (cs : List Char) :
    Except String (Json × List Char) :=
  match fuel with
  | 0 => .error "value fuel exhausted"
  | fuel + 1 =>
    let cs := cs.dropWhile jsonWsChar
    match cs with
    | [] => .error "Unexpected end of JSON input"
    | c :: rest =>
      if c == lbrace then
        match rest.dropWhile jsonWsChar with
        | d :: r2 =>
          if d == rbrace then .ok (.obj [], r2)
          else parseJsonMembers fuel (rest.dropWhile jsonWsChar) []
        | [] => .error "Unexpected end of JSON input"
      else if c == '[' then
        match rest.dropWhile jsonWsChar with
        | ']' :: r2 => .ok (.arr [], r2)
        | _ => parseJsonElements fuel rest []
      else if c == '"' then
        match parseJsonStringAux (cs.length + 1) rest [] with
        | .ok (s, r2) => .ok (.str s, r2)
        | .error e => .error e
      else if cs.take 4 == ['t', 'r', 'u', 'e'] then .ok (.bool true, cs.drop 4)
      else if cs.take 5 == ['f', 'a', 'l', 's', 'e'] then .ok (.bool false, cs.drop 5)
      else if cs.take 4 == ['n', 'u', 'l', 'l'] then .ok (.null, cs.drop 4)
      else
        match numberLexeme cs with
        | some (lex, r2) => .ok (.num (String.mk lex), r2)
        | none => .error ("Unexpected token " ++ String.mk [c] ++ " in JSON")

/-- Members of a JSON object (positioned at a key), accumulating fields. -/
def parseJsonMembers (fuel : Nat) (cs : List Char)
    (acc : List (String × Json)) : Except String (Json × List Char) :=
  match fuel with
  | 0 => .error "member fuel exhausted"
  | fuel + 1 =>
    match cs.dropWhile jsonWsChar with
    | '"' :: r1 =>
      match parseJsonStringAux (r1.length + 1) r1 [] with
      | .error e => .error e
      | .ok (key, r2) =>
        match r2.dropWhile jsonWsChar with
        | ':' :: r3 =>
          match parseJsonValue fuel r3 with
          | .error e => .error e
          | .ok (v, r4) =>
            match r4.dropWhile jsonWsChar with
            | ',' :: r5 => parseJsonMembers fuel r5 (acc ++ [(key, v)])
            | d :: r5 =>
              if d == rbrace then .ok (.obj (acc ++ [(key, v)]), r5)
              else .error "Expected comma or closing brace in JSON object"
            | [] => .error "Unexpected end of JSON input"
        | _ => .error "Expected colon in JSON object"
    | _ => .error "Expected string key in JSON object"

/-- Elements of a JSON array (positioned at a value), accumulating. -/
def parseJsonElements (fuel : Nat) (cs : List Char) (acc : List Json) :
    Except String (Json × List Char) :=
  match fuel with
  | 0 => .error "element fuel exhausted"
  | fuel + 1 =>
    match parseJsonValue fuel cs with
    | .error e => .error e
    | .ok (v, r1) =>
      match r1.dropWhile jsonWsChar with
      | ',' :: r2 => parseJsonElements fuel r2 (acc ++ [v])
      | ']' :: r2 => .ok (.arr (acc ++ [v]), r2)
      | _ => .error "Expected comma or closing bracket in JSON array"

end

/-- The `JSON.parse`: a single JSON value covering the entire input up to
trailing whitespace.  The fuel is generous enough for any input of the
claims; exhaustion is reported as a parse error. -/
def jsonParse (s : String) : Except String Json :=
  let cs := s.toList
  match parseJsonValue (4 * (cs.length + 1)) cs with
  | .error e => .error e
  | .ok (v, rest) =>
    if (rest.dropWhile jsonWsChar).isEmpty then .ok v
    else .error "Unexpected non-whitespace character after JSON"

-- ─────────────────────────────────────────────────────────────────────────────
-- cleanLLMJson (src/utils/clean-llm-json.ts)
-- ─────────────────────────────────────────────────────────────────────────────

/-- Drop JS-whitespace characters from the right of a character list. -/
def dropTrailingWs (cs : List Char) : List Char :=
  (cs.reverse.dropWhile (·.isWhitespace)).reverse

/-- The `response.replace(/^```json\s*|\s*```$/g, "")`: remove a leading
"```json" marker together with the whitespace after it, and a trailing "```"
marker together with the whitespace before it. -/
def stripJsonFence (s : String) : String :=
  let cs := s.toList
  let cs1 :=
    if cs.take 7 == "```json".toList then (cs.drop 7).dropWhile (·.isWhitespace)
    else cs
  let cs2 :=
    if cs1.length ≥ 3 && cs1.drop (cs1.length - 3) == "```".toList then
      dropTrailingWs (cs1.take (cs1.length - 3))
    else cs1
  String.mk cs2

/-- The `replace(/\\n/g, " ")`: each literal backslash-n two-character sequence
becomes a space. -/
def replaceLiteralBackslashN : List Char → List Char
  | '\\' :: 'n' :: rest => ' ' :: replaceLiteralBackslashN rest
  | c :: rest => c :: replaceLiteralBackslashN rest
  | [] => []

/-- The `match.replace(/([^\\])"/g, "$1\\\"")`: scanning left to right, each
quote preceded by a non-backslash character gains a backslash; scanning
resumes after each two-character match. -/
def escapeQuotesAfterNonBackslash : List Char → List Char
  | [] => []
  | [c] => [c]
  | c1 :: c2 :: rest =>
    if c1 != '\\' && c2 == '"' then
      c1 :: '\\' :: '"' :: escapeQuotesAfterNonBackslash rest
    else
      c1 :: escapeQuotesAfterNonBackslash (c2 :: rest)

/-- The `.replace(/^: *"/, ": \"")`: when the string starts with a colon, spaces
and a quote, normalize that prefix to colon-space-quote. -/
def fixColonQuotePrefix (cs : List Char) : List Char :=
  match cs with
  | ':' :: rest =>
    match rest.dropWhile (· == ' ') with
    | '"' :: tail => ':' :: ' ' :: '"' :: tail
    | _ => cs
  | _ => cs

/-- The content part `[^"\\]*(?:\\.[^"\\]*)*` of the repair regex, ending at
the closing quote: the consumed content and the input after the quote.  The
`.` of `\\.` does not match a line feed. -/
def repairStringContent (fuel : Nat) (cs : List Char) (acc : List Char) :
    Option (List Char × List Char) :=
  match fuel with
  | 0 => none
  | fuel + 1 =>
    let chunk := cs.takeWhile (fun c => c != '"' && c != '\\')
    match cs.dropWhile (fun c => c != '"' && c != '\\') with
    | '"' :: rest => some (acc ++ chunk, rest)
    | '\\' :: c :: rest =>
      if c == '\n' then none
      else repairStringContent fuel rest (acc ++ chunk ++ ['\\', c])
    | _ => none

/-- One match of `/: *"([^"\\]*(?:\\.[^"\\]*)*)"/` at the head of the input:
the full matched text and the rest of the input. -/
def matchColonString (cs : List Char) : Option (List Char × List Char) :=
  match cs with
  | ':' :: rest =>
    let sp := rest.takeWhile (· == ' ')
    match rest.dropWhile (· == ' ') with
    | '"' :: r2 =>
      match repairStringContent (r2.length + 1) r2 [] with
      | some (content, r3) =>
        some (':' :: sp ++ '"' :: content ++ ['"'], r3)
      | none => none
    | _ => none
  | _ => none

/-- The global replace of the repair pass: every match of the colon-string
regex is rewritten by the replacement function (escape inner quotes, then
restore the `: "` prefix); everything else is copied. -/
def repairScan (fuel : Nat) (cs : List Char) : List Char :=
  match fuel, cs with
  | 0, cs => cs
  | _, [] => []
  | fuel + 1, c :: rest =>
    match matchColonString (c :: rest) with
    | some (matched, after) =>
      fixColonQuotePrefix (escapeQuotesAfterNonBackslash matched) ++
        repairScan fuel after
    | none => c :: repairScan fuel rest

/-- The repair pass applied by `cleanLLMJson` on a failed first parse. -/
def repairPass (s : String) : String :=
  String.mk (repairScan (s.toList.length + 1) s.toList)

/-- Whether `item[field]` is defined for a parsed JSON value: only an object
with that key (JSON.parse never produces `undefined` values). -/
def jsonFieldDefined (v : Json) (field : String) : Bool :=
  match v with
  | .obj fields => fields.any (fun kv => kv.1 == field)
  | _ => false

/-- Required-field validation of `cleanLLMJson`: a field is missing when the
top-level object lacks it or, for array responses, every element lacks it. -/
def validateRequiredFields (requiredFields : List String) (v : Json) :
    Except String Json :=
  let missingFields := requiredFields.filter fun field =>
    match v with
    | .arr items => items.all (fun item => !(jsonFieldDefined item field))
    | _ => !(jsonFieldDefined v field)
  if missingFields.length > 0 then
    .error ("Invalid LLM format: Missing required fields: " ++
      String.intercalate ", " missingFields)
  else .ok v

/-- Arguments of `cleanLLMJson`. -/
structure CleanLLMJsonProps where
  response : String
  requiredFields : List String
  preserveFormatting : Bool := true

/-- The `cleanLLMJson` (clean-llm-json.ts): strip code-fence markers, optionally
normalize literal `\n` sequences, parse and validate; on any failure of that
first attempt, apply the quote-repair pass and parse and validate again,
propagating the second failure. -/
def cleanLLMJson (props : CleanLLMJsonProps) : Except String Json :=
  let strippedResponse := stripJsonFence props.response
  let strippedResponse :=
    if props.preserveFormatting then strippedResponse
    else jsTrim (String.mk (replaceLiteralBackslashN strippedResponse.toList))
  let firstAttempt : Except String Json := do
    validateRequiredFields props.requiredFields (← jsonParse strippedResponse)
  match firstAttempt with
  | .ok v => .ok v
  | .error _ =>
    let fixedJson := repairPass strippedResponse
    do validateRequiredFields props.requiredFields (← jsonParse fixedJson)

-- ─────────────────────────────────────────────────────────────────────────────
-- Scraper factory (src/services/scrapers/scraper-factory.ts, base-scraper.ts)
-- ─────────────────────────────────────────────────────────────────────────────

/-- The `ScraperType` (scraper-factory.ts). -/
inductive ScraperType
  | INDEED
  | OPPORTUNITY_FOR_AFRICANS
  | LINKEDIN
deriving DecidableEq, Repr

/-- The factory's scraper map, by type string. -/
def scraperTypeOfString (s : String) : Option ScraperType :=
  if s == "INDEED" then some .INDEED
  else if s == "OPPORTUNITY_FOR_AFRICANS" then some .OPPORTUNITY_FOR_AFRICANS
  else if s == "LINKEDIN" then some .LINKEDIN
  else none

/-- The `ScraperFactory.getScraper` as called through the queue service's
`getScraper`: an unknown type string throws inside the factory (before the
queue service's own null check can fire). -/
def getScraperE (scraperType : String) : Except String ScraperType :=
  match scraperTypeOfString scraperType with
  | some t => .ok t
  | none => .error ("Scraper not found for type: " ++ scraperType)

/-- The `constructOpportunityDetailsPage` of the three scraper implementations. -/
def constructOpportunityDetailsPage (t : ScraperType) (path : String) : String :=
  match t with
  | .OPPORTUNITY_FOR_AFRICANS => "https://opportunitydesk.org/" ++ path
  | .INDEED => "https://indeed.com/viewjob?jk=" ++ path
  | .LINKEDIN => "https://www.linkedin.com/jobs/view/" ++ path

/-- The `ScrapingResult` (base-scraper.ts); `errors` is an optional field. -/
structure ScrapingResult where
  success : Bool
  opportunity_listings : List Listing
  total_found : Int
  errors : Option (List String) := none
deriving DecidableEq, Repr

-- ─────────────────────────────────────────────────────────────────────────────
-- Cache keys (buildCacheKey uses Buffer base64 of the URL's UTF-8 bytes)
-- ─────────────────────────────────────────────────────────────────────────────

/-- UTF-8 bytes of one character. -/
def utf8Bytes (c : Char) : List Nat :=
  let n := c.toNat
  if n < 0x80 then [n]
  else if n < 0x800 then
    [0xC0 ||| (n >>> 6), 0x80 ||| (n &&& 0x3F)]
  else if n < 0x10000 then
    [0xE0 ||| (n >>> 12), 0x80 ||| ((n >>> 6) &&& 0x3F), 0x80 ||| (n &&& 0x3F)]
  else
    [0xF0 ||| (n >>> 18), 0x80 ||| ((n >>> 12) &&& 0x3F),
     0x80 ||| ((n >>> 6) &&& 0x3F), 0x80 ||| (n &&& 0x3F)]

/-- The base64 alphabet. -/
def base64Alphabet : List Char :=
  "ABCDEFGHIJKLMNOPQRSTUVWXYZabcdefghijklmnopqrstuvwxyz0123456789+/".toList

/-- One base64 output character. -/
def b64Char (n : Nat) : Char := base64Alphabet.getD n 'A'

/-- Standard base64 of a byte list, with `=` padding. -/
def base64Encode : List Nat → List Char
  | [] => []
  | [a] => [b64Char (a >>> 2), b64Char ((a &&& 3) <<< 4), '=', '=']
  | [a, b] =>
    [b64Char (a >>> 2), b64Char (((a &&& 3) <<< 4) ||| (b >>> 4)),
     b64Char ((b &&& 15) <<< 2), '=']
  | a :: b :: c :: rest =>
    [b64Char (a >>> 2), b64Char (((a &&& 3) <<< 4) ||| (b >>> 4)),
     b64Char (((b &&& 15) <<< 2) ||| (c >>> 6)), b64Char (c &&& 63)] ++
    base64Encode rest

/-- The `buildCacheKey` (crawl-queue-service.ts): base64 of the URL, last 10
characters (`slice(-10)`), under the `crawl_listings` prefix with the source
id. -/
def buildCacheKey (crawlSourceId url : String) : String :=
  let b64 := base64Encode (url.toList.flatMap utf8Bytes)
  let urlHash := String.mk (b64.drop (b64.length - 10))
  "crawl_listings:" ++ crawlSourceId ++ ":" ++ urlHash

-- ─────────────────────────────────────────────────────────────────────────────
-- Queues and pipeline state (crawl-queue-service.ts, crawl-source-service.ts)
-- ─────────────────────────────────────────────────────────────────────────────

/-- The `ListingCrawlJobData`. -/
structure ListingCrawlJobData where
  crawlSourceId : String
  url : String
  scraperType : String
  userId : Option String := none
deriving DecidableEq, Repr

/-- The `DetailsCrawlJobData`. -/
structure DetailsCrawlJobData where
  crawlSourceId : String
  opportunityId : String
  scraperType : String
  cacheKey : String
  userId : Option String := none
deriving DecidableEq, Repr

/-- The `CrawlJobOptions` (the `backoff` override is never passed by the callers
modelled here and is omitted). Delays are rationals, since the sources
compute them as `Math.random()` times a constant. -/
structure CrawlJobOptions where
  priority : Option Int := none
  delay : Option ℚ := none
  attempts : Option Int := none
deriving DecidableEq, Repr

/-- A job accepted by the listing queue, with its resolved Bull options. -/
structure QueuedListingJob where
  data : ListingCrawlJobData
  priority : Int
  delay : ℚ
  attempts : Int
deriving DecidableEq, Repr

/-- A job accepted by the details queue, with its resolved Bull options. -/
structure QueuedDetailJob where
  data : DetailsCrawlJobData
  priority : Int
  delay : ℚ
  attempts : Int
deriving DecidableEq, Repr

/-- The `queueListingCrawl`: Bull options default to priority 10, delay 0,
attempts 3. -/
def queueListingCrawl (data : ListingCrawlJobData) (options : CrawlJobOptions) :
    QueuedListingJob :=
  { data := data
    priority := options.priority.getD 10
    delay := options.delay.getD 0
    attempts := options.attempts.getD 3 }

/-- The `queueDetailsCrawl`: Bull options default to priority 5, delay 0,
attempts 3. -/
def queueDetailsCrawl (data : DetailsCrawlJobData) (options : CrawlJobOptions) :
    QueuedDetailJob :=
  { data := data
    priority := options.priority.getD 5
    delay := options.delay.getD 0
    attempts := options.attempts.getD 3 }

/-- The `crawlSource` snapshot stored in a cache payload. -/
structure CachedCrawlSource where
  id : String
  isDetailsCrawled : Bool
deriving DecidableEq, Repr

/-- The `CachedListingData` (the JSON payload cached under the listing key). -/
structure CachedListingData where
  listings : List Listing
  timestamp : Time
  crawlSourceId : String
  url : String
  crawlSource : CachedCrawlSource
deriving DecidableEq, Repr

/-- The state the pipeline acts on: the CrawlSource table, the draft store,
the listing cache, and the two Bull queues (jobs in enqueue order). -/
structure PipelineState where
  sources : List CrawlSource
  db : DraftDB
  cache : List (String × CachedListingData)
  listingJobs : List QueuedListingJob
  detailJobs : List QueuedDetailJob
deriving DecidableEq, Repr

/-- The `prisma.crawlSource.findUnique({ where: { id } })`. -/
def findSource (sources : List CrawlSource) (id : String) : Option CrawlSource :=
  sources.find? (fun s => s.id == id)

/-- The `prisma.crawlSource.update({ where: { id }, data })`: rewrite the record
with that id. -/
def updateSourceById (sources : List CrawlSource) (id : String)
    (f : CrawlSource → CrawlSource) : List CrawlSource :=
  sources.map (fun s => if s.id == id then f s else s)

/-- The `redis.set` for the listing cache: overwrite the key. -/
def setCacheEntry (cache : List (String × CachedListingData)) (key : String)
    (v : CachedListingData) : List (String × CachedListingData) :=
  (cache.filter (fun kv => kv.1 != key)) ++ [(key, v)]

/-- The `redis.get` for the listing cache. -/
def getCacheEntry (cache : List (String × CachedListingData)) (key : String) :
    Option CachedListingData :=
  (cache.find? (fun kv => kv.1 == key)).map (fun kv => kv.2)

/-- The `queueDetailsCrawlJobs`: one Detail job per listing, each with priority 5,
a random delay below 5 s, and the shared cache key. -/
def queueDetailsCrawlJobs (listings : List Listing)
    (crawlSourceId scraperType cacheKey : String) (rands : Nat → ℚ)
    (st : PipelineState) : PipelineState :=
  let newJobs := listings.enum.map (fun (i, listing) =>
    queueDetailsCrawl
      { crawlSourceId := crawlSourceId
        opportunityId := listing.opportunity_id
        scraperType := scraperType
        cacheKey := cacheKey }
      { priority := some 5, delay := some (rands i * 5000) })
  { st with detailJobs := st.detailJobs ++ newJobs }

/-- The `createAIDraftsFromListings`: materialize a draft per listing via
`createAIDraft`, counting successes; per-item failures are swallowed and the
loop continues (with a total `createAIDraft`, the `catch` arm is
unreachable). -/
def createAIDraftsFromListings (now : Time) (listings : List Listing)
    (crawlSourceId : String) (scraper : ScraperType) (db : DraftDB) :
    Int × DraftDB :=
  match listings with
  | [] => (0, db)
  | listing :: rest =>
    let sourceUrl := constructOpportunityDetailsPage scraper listing.opportunity_id
    let (created, db1) := createAIDraft now db
      { listing := some listing
        details := none
        crawlSourceId := crawlSourceId
        sourceUrl := sourceUrl
        isDetailsCrawled := false }
    let (n, db2) := createAIDraftsFromListings now rest crawlSourceId scraper db1
    ((if created then 1 else 0) + n, db2)

/-- The message thrown for a failed or empty extraction result:
`result?.errors?.length ? \u0060Crawl failed: ...\u0060 : "No opportunities found"`. -/
def listingFailureMessage (result : ScrapingResult) : String :=
  match result.errors with
  | some errs =>
    if errs.length != 0 then "Crawl failed: " ++ String.intercalate ", " errs
    else "No opportunities found"
  | none => "No opportunities found"

/-- Everything inside the `try` of `processListingCrawl`: look up the source,
mark it `ACTIVE`, resolve the scraper, run the listing scrape (its outcome is
supplied by the environment), reject a failed or empty result, cache the
listings, then branch on `isDetailsCrawled` (queue Detail jobs, or materialize
drafts directly) and apply the success update using the snapshot read at job
start.  Returns the state reached together with the outcome. -/
def processListingBody (now : Time) (jobData : ListingCrawlJobData)
    (scrapeOutcome : Except String ScrapingResult) (rands : Nat → ℚ)
    (st : PipelineState) : PipelineState × Except String ScrapingResult :=
  match findSource st.sources jobData.crawlSourceId with
  | none => (st, .error ("Crawl source not found: " ++ jobData.crawlSourceId))
  | some crawlSource =>
    let srcs1 := updateSourceById st.sources jobData.crawlSourceId
      (updateCrawlSourceStatusFields now .ACTIVE)
    let st1 := { st with sources := srcs1 }
    match getScraperE jobData.scraperType with
    | .error e => (st1, .error e)
    | .ok scraper =>
      match scrapeOutcome with
      | .error e => (st1, .error e)
      | .ok result =>
        if !result.success || result.opportunity_listings.isEmpty then
          (st1, .error (listingFailureMessage result))
        else
          let cacheKey := buildCacheKey jobData.crawlSourceId jobData.url
          let cacheData : CachedListingData :=
            { listings := result.opportunity_listings
              timestamp := now
              crawlSourceId := jobData.crawlSourceId
              url := jobData.url
              crawlSource :=
                { id := crawlSource.id
                  isDetailsCrawled := crawlSource.isDetailsCrawled } }
          let st2 := { st1 with cache := setCacheEntry st1.cache cacheKey cacheData }
          let st3 :=
            if crawlSource.isDetailsCrawled then
              queueDetailsCrawlJobs result.opportunity_listings
                jobData.crawlSourceId jobData.scraperType cacheKey rands st2
            else
              let (_, db2) := createAIDraftsFromListings now
                result.opportunity_listings jobData.crawlSourceId scraper st2.db
              { st2 with db := db2 }
          let srcs4 := updateSourceById st3.sources jobData.crawlSourceId
            (updateCrawlSourceSuccessFields now crawlSource result.total_found)
          let st4 := { st3 with sources := srcs4 }
          (st4, .ok result)

/-- The `processListingCrawl`: the body above wrapped by the job-boundary
`catch`, which applies `updateCrawlSourceError` to the state reached (a
failing update on a missing id is itself swallowed) and rethrows the error,
so the queue's retry mechanics see a failed job. -/
def processListingCrawl (now : Time) (jobData : ListingCrawlJobData)
    (scrapeOutcome : Except String ScrapingResult) (rands : Nat → ℚ)
    (st : PipelineState) : PipelineState × Except String ScrapingResult :=
  match processListingBody now jobData scrapeOutcome rands st with
  | (st1, .ok result) => (st1, .ok result)
  | (st1, .error e) =>
    let srcs := updateSourceById st1.sources jobData.crawlSourceId
      (updateCrawlSourceErrorFields e)
    ({ st1 with sources := srcs }, .error e)

/-- The `processDetailsCrawl`: read the cached listing batch by key (a missing or
corrupted entry fails the job), find this job's listing, resolve the scraper,
run the detail scrape (outcome supplied by the environment), reject a result
without an id, then hand the merged record to `createAIDraft`; the job result
carries `aiDraftCreated`.  The `catch` only logs and rethrows, and the
CrawlSource table is never touched. -/
def processDetailsCrawl (now : Time) (jobData : DetailsCrawlJobData)
    (detailsOutcome : Except String OpportunityDetails) (st : PipelineState) :
    PipelineState × Except String (Listing × OpportunityDetails × Bool) :=
  match getCacheEntry st.cache jobData.cacheKey with
  | none => (st, .error ("Cache not found: " ++ jobData.cacheKey))
  | some cached =>
    if cached.timestamp == 0 then
      (st, .error ("Corrupted cache: " ++ jobData.cacheKey))
    else
      match cached.listings.find?
          (fun l => l.opportunity_id == jobData.opportunityId) with
      | none =>
        (st, .error ("Listing not found for opportunity: " ++ jobData.opportunityId))
      | some listingData =>
        match getScraperE jobData.scraperType with
        | .error e => (st, .error e)
        | .ok scraper =>
          match detailsOutcome with
          | .error e => (st, .error e)
          | .ok details =>
            if details.id.isEmpty then
              (st, .error "Invalid opportunity details format")
            else
              let sourceUrl :=
                constructOpportunityDetailsPage scraper jobData.opportunityId
              let (aiDraftCreated, db2) := createAIDraft now st.db
                { listing := some listingData
                  details := some details
                  crawlSourceId := jobData.crawlSourceId
                  sourceUrl := sourceUrl
                  isDetailsCrawled := true }
              ({ st with db := db2 }, .ok (listingData, details, aiDraftCreated))

-- ─────────────────────────────────────────────────────────────────────────────
-- Crawl triggers and the recurring sweep (crawl-source-service.ts)
-- ─────────────────────────────────────────────────────────────────────────────

/-- The `triggerCrawl`: a manual trigger; not-found and inactive sources are
rejected, otherwise a Listing job is queued with priority 10 and no delay. -/
def triggerCrawl (st : PipelineState) (id : String) (userId : Option String) :
    PipelineState × Except String String :=
  match findSource st.sources id with
  | none => (st, .error "Crawl source not found")
  | some crawlSource =>
    if !crawlSource.isActive then (st, .error "Crawl source is not active")
    else
      let job := queueListingCrawl
        { crawlSourceId := id
          url := crawlSource.url
          scraperType := crawlSource.scraperType
          userId := userId }
        { priority := some 10, delay := some 0 }
      ({ st with listingJobs := st.listingJobs ++ [job] },
       .ok "Crawl job queued successfully. Processing will begin shortly.")

/-- Loop of `triggerBulkCrawl`: skip missing or inactive sources; each queued
job gets priority 8 and a random delay below 10 s; returns the number of
queued jobs. -/
def triggerBulkLoop (userId : Option String) (rands : Nat → ℚ) :
    List String → Nat → PipelineState → PipelineState × Nat
  | [], _, st => (st, 0)
  | id :: rest, i, st =>
    match findSource st.sources id with
    | some crawlSource =>
      if crawlSource.isActive then
        let job := queueListingCrawl
          { crawlSourceId := id
            url := crawlSource.url
            scraperType := crawlSource.scraperType
            userId := userId }
          { priority := some 8, delay := some (rands i * 10000) }
        let (st2, n) := triggerBulkLoop userId rands rest (i + 1)
          { st with listingJobs := st.listingJobs ++ [job] }
        (st2, n + 1)
      else triggerBulkLoop userId rands rest (i + 1) st
    | none => triggerBulkLoop userId rands rest (i + 1) st

/-- The `triggerBulkCrawl`. -/
def triggerBulkCrawl (st : PipelineState) (crawlSourceIds : List String)
    (userId : Option String) (rands : Nat → ℚ) : PipelineState × Nat :=
  triggerBulkLoop userId rands crawlSourceIds 0 st

/-- A CrawlSource matched by the sweep's query:
`isActive: true, nextCrawlAt: { lte: now }`. -/
def isDue (now : Time) (s : CrawlSource) : Bool :=
  s.isActive && decide (s.nextCrawlAt ≤ now)

/-- Loop of `scheduleRecurringCrawls` over the due sources: queue a Listing
job with priority 5 and a random delay below 30 s, then immediately set the
source's `nextCrawlAt` from its frequency (before any queued job runs);
returns the number of queued jobs. -/
def scheduleLoop (now : Time) (rands : Nat → ℚ) :
    List CrawlSource → Nat → PipelineState → PipelineState × Nat
  | [], _, st => (st, 0)
  | s :: rest, i, st =>
    let job := queueListingCrawl
      { crawlSourceId := s.id, url := s.url, scraperType := s.scraperType }
      { priority := some 5, delay := some (rands i * 30000) }
    let st1 := { st with listingJobs := st.listingJobs ++ [job] }
    let srcs := updateSourceById st1.sources s.id
      (fun t => { t with nextCrawlAt := calculateNextCrawlTime now s.frequency })
    let st2 := { st1 with sources := srcs }
    let (st3, n) := scheduleLoop now rands rest (i + 1) st2
    (st3, n + 1)

/-- The `scheduleRecurringCrawls`: select the active sources whose `nextCrawlAt`
has elapsed and run the loop above; the result is `jobsQueued`. -/
def scheduleRecurringCrawls (now : Time) (rands : Nat → ℚ)
    (st : PipelineState) : PipelineState × Nat :=
  scheduleLoop now rands (st.sources.filter (isDue now)) 0 st

-- ─────────────────────────────────────────────────────────────────────────────
-- Queue backend priority semantics
-- ─────────────────────────────────────────────────────────────────────────────

/-- Modelled from the job-queue backend's (Bull's) documented semantics, a
host dependency rather than repository code: `priority` ranges from 1
(highest priority) to `MAX_INT` (lowest priority), so a job with a
numerically smaller priority value is served before one with a larger
value. -/
def bullServedBefore (p q : Int) : Prop := p < q

instance bullServedBeforeDecidable (p q : Int) : Decidable (bullServedBefore p q) :=
  inferInstanceAs (Decidable (p < q))

-- ─────────────────────────────────────────────────────────────────────────────
-- Theorems about the claims
-- ─────────────────────────────────────────────────────────────────────────────

/-- C5: `parseDeadline` maps "30 January 2026", "January 30th, 2026",
"2026-01-30" and "30/01/2026" to the same calendar date 2026-01-30, and
`parseDeadlineWithFallback` maps `null` and unparseable input to a date at
least now+29 days and at most now+31 days (it is exactly now+30 days). -/
theorem parseDeadline_formats_and_fallback :
    (parseDeadline (some "30 January 2026") = some (utcDate 2026 1 30) ∧
     parseDeadline (some "January 30th, 2026") = some (utcDate 2026 1 30) ∧
     parseDeadline (some "2026-01-30") = some (utcDate 2026 1 30) ∧
     parseDeadline (some "30/01/2026") = some (utcDate 2026 1 30)) ∧
    ∀ now : Time,
      (now + 29 * msPerDay ≤ parseDeadlineWithFallback now none ∧
        parseDeadlineWithFallback now none ≤ now + 31 * msPerDay) ∧
      (now + 29 * msPerDay ≤ parseDeadlineWithFallback now (some "garbage") ∧
        parseDeadlineWithFallback now (some "garbage") ≤ now + 31 * msPerDay) := by
  refine ⟨⟨by decide, by decide, by decide, by decide⟩, ?_⟩
  intro now
  have hnone : parseDeadline none = none := rfl
  have hgarbage : parseDeadline (some "garbage") = none := by decide
  have h1 : parseDeadlineWithFallback now none =
      now + DEFAULT_DEADLINE_DAYS * 24 * 60 * 60 * 1000 := by
    unfold parseDeadlineWithFallback
    rw [hnone]
  have h2 : parseDeadlineWithFallback now (some "garbage") =
      now + DEFAULT_DEADLINE_DAYS * 24 * 60 * 60 * 1000 := by
    unfold parseDeadlineWithFallback
    rw [hgarbage]
  rw [h1, h2]
  unfold msPerDay DEFAULT_DEADLINE_DAYS
  refine ⟨⟨by linarith, by linarith⟩, ⟨by linarith, by linarith⟩⟩

/-- An LLM response whose only defect is the unescaped quote pair around
`Johnny` inside the string value. -/
def exUnescapedQuoteResp : String := "\x7b\"name\": \"John \"Johnny\" Doe\"\x7d"

/-- What the repair pass actually produces for it: the value's opening quote
stays escaped, so the result is still not JSON. -/
def exCorruptRepairOutput : String := "\x7b\"name\": \\\"John \\\"Johnny\" Doe\"\x7d"

/-- The same response with the inner quotes properly escaped. -/
def exEscapedQuoteResp : String := "\x7b\"name\": \"John \\\"Johnny\\\" Doe\"\x7d"

/-- A well-formed response lacking the required `name` field. -/
def exMissingFieldResp : String := "\x7b\"title\": \"x\"\x7d"

/-- C6: on a response whose only defect is an unescaped double quote inside a
string value, the first parse fails and the repair pass produces a string that
is still invalid (it escapes the value's opening quote and the prefix-fixing
replace cannot match afterwards), so `cleanLLMJson` raises a parse failure —
contradicting the documented recovery; a missing required field also raises a
failure, and the same input with the quote properly escaped succeeds. -/
theorem cleanLLMJson_unescaped_quote_repair_fails :
    (cleanLLMJson { response := exUnescapedQuoteResp, requiredFields := ["name"] }).isOk = false ∧
    repairPass exUnescapedQuoteResp = exCorruptRepairOutput ∧
    (jsonParse exCorruptRepairOutput).isOk = false ∧
    (cleanLLMJson { response := exEscapedQuoteResp, requiredFields := ["name"] }).isOk = true ∧
    (cleanLLMJson { response := exMissingFieldResp, requiredFields := ["name"] }).isOk = false := by
  exact ⟨by decide, by decide, by decide, by decide, by decide⟩

/-- A crawl source used as a concrete fixture in several evaluations. -/
def exSource : CrawlSource :=
  { id := "s1"
    url := "https://opportunitydesk.org/category/all"
    frequency := .WEEKLY
    scraperType := "OPPORTUNITY_FOR_AFRICANS"
    status := .INACTIVE
    isActive := true
    isDetailsCrawled := false
    lastCrawledAt := none
    nextCrawlAt := 0
    opportunitiesFound := some 5
    errorMessage := none }

/-- A pipeline state holding only `exSource`, with everything else empty. -/
def exState : PipelineState :=
  { sources := [exSource], db := { drafts := [] }, cache := [],
    listingJobs := [], detailJobs := [] }

/-- C9: the three Listing-enqueue sites assign priority 10 to a manual
trigger, 8 to a bulk trigger and 5 to a scheduled job, but under the queue
backend's documented semantics (1 = highest priority) a scheduled job is
served before a bulk job and a bulk job before a manual one — the effective
order is the reverse of `manual > bulk > scheduled`. -/
theorem listing_job_priority_inversion :
    ((triggerCrawl exState "s1" none).1.listingJobs.map
      (fun j => j.priority) = [10]) ∧
    ((triggerBulkCrawl exState ["s1"] none (fun _ => 0)).1.listingJobs.map
      (fun j => j.priority) = [8]) ∧
    ((scheduleRecurringCrawls 0 (fun _ => 0) exState).1.listingJobs.map
      (fun j => j.priority) = [5]) ∧
    bullServedBefore 5 8 ∧ bullServedBefore 8 10 ∧
    ¬ bullServedBefore 10 8 ∧ ¬ bullServedBefore 10 5 := by
  exact ⟨by decide, by decide, by decide, by decide, by decide,
    by decide, by decide⟩

/-- A scrape environment with no cache hit where every attempt succeeds. -/
def envAllOk : ScrapeEnv := { cached := none, attempts := fun _ => .ok "PAGE_A" }

/-- A scrape environment with no cache hit where every attempt fails. -/
def envAllFail : ScrapeEnv :=
  { cached := none, attempts := fun _ => .error "network down" }

/-- C7 counterexample: the `Response` object is an instance field shared by
all calls, so after one successful call, a later call whose retries are all
exhausted returns a result whose `error` is set but whose `data` still holds
the previous call's content — not `null` as claimed. -/
theorem scrape_stale_data_counterexample :
    (scrape (scrape scraperResponseInit envAllOk) envAllFail).error =
      some "network down" ∧
    (scrape (scrape scraperResponseInit envAllOk) envAllFail).data =
      some "PAGE_A" ∧
    (scrape (scrape scraperResponseInit envAllOk) envAllFail).data ≠ none := by
  refine ⟨by decide, by decide, by decide⟩

/-- C7 amended: `scrape` never throws (it is a total function of the attempt
outcomes); with no usable cache entry, exhausted retries set `error` to the
last attempt's message and leave `data` as it was — in particular `data` is
`null` when the instance is fresh — and a successful attempt stores the
content with `error` cleared; a truthy cache hit stores the cached content
without touching `error`. -/
theorem scrape_boundary_spec (st : ScraperResponse) (env : ScrapeEnv)
    (m d c : String) :
    (env.cached = none →
      (runRetry env 0 scrapeRetries = .error m →
        scrape st env = { st with error := some m }) ∧
      (runRetry env 0 scrapeRetries = .ok d →
        scrape st env = { st with data := some d, error := none })) ∧
    (env.cached = none → runRetry env 0 scrapeRetries = .error m →
      (scrape scraperResponseInit env).data = none ∧
      (scrape scraperResponseInit env).error = some m) ∧
    (env.cached = some c → c.isEmpty = false →
      scrape st env = { st with data := some c }) := by
  refine ⟨fun hc => ⟨fun hr => ?_, fun hr => ?_⟩,
    fun hc hr => ?_, fun hc hne => ?_⟩
  · simp [scrape, hc, hr]
  · simp [scrape, hc, hr]
  · simp [scrape, hc, hr, scraperResponseInit]
  · simp [scrape, hc, hne]

/-- Witness for the amended C7 theorem at a concrete failing environment. -/
theorem scrape_boundary_spec_witness :
    envAllFail.cached = none ∧
    runRetry envAllFail 0 scrapeRetries = .error "network down" ∧
    scrape scraperResponseInit envAllFail =
      { scraperResponseInit with error := some "network down" } :=
  ⟨rfl, rfl,
    ((scrape_boundary_spec scraperResponseInit envAllFail "network down" "" "").1
      rfl).1 rfl⟩

/-- The `buildDraft` stamps the natural key it was given, so a created draft is
found by the same lookup afterwards. -/
theorem buildDraft_key (listing : Listing) (details : Option OpportunityDetails)
    (crawlSourceId sourceUrl : String) (isDetailsCrawled : Bool) (deadline : Time) :
    (buildDraft listing details crawlSourceId sourceUrl isDetailsCrawled
      deadline).sourceUrl = sourceUrl ∧
    (buildDraft listing details crawlSourceId sourceUrl isDetailsCrawled
      deadline).crawlSourceId = crawlSourceId :=
  ⟨rfl, rfl⟩

/-- Elimination form of a successful `createAIDraft`: a `true` result can only
come from the insert path, and it pins down the final store. -/
theorem createAIDraft_true_elim (now : Time) (db : DraftDB)
    (data : AIDraftCreationData) (db2 : DraftDB)
    (h : createAIDraft now db data = (true, db2)) :
    ∃ listing, data.listing = some listing ∧
      (data.crawlSourceId.isEmpty || data.sourceUrl.isEmpty) = false ∧
      db.failFind = false ∧ db.failCreate = false ∧
      db.drafts.find? (draftKeyMatches data.sourceUrl data.crawlSourceId) = none ∧
      db2 = { db with drafts := db.drafts ++
        [buildDraft listing data.details data.crawlSourceId data.sourceUrl
          data.isDetailsCrawled
          (parseDeadlineWithFallback now
            (jsOrOptStr (data.details.map (fun od => od.deadline))
              listing.deadline))] } := by
  unfold createAIDraft at h
  cases hl : data.listing with
  | none => rw [hl] at h; exact absurd h (by simp)
  | some listing =>
    rw [hl] at h
    simp only [] at h
    cases hguard : (data.crawlSourceId.isEmpty || data.sourceUrl.isEmpty) with
    | true => rw [hguard] at h; simp at h
    | false =>
      rw [hguard] at h
      simp only [Bool.false_eq_true, if_false] at h
      cases hbody : createAIDraftBody now db listing data.details
          data.crawlSourceId data.sourceUrl data.isDetailsCrawled with
      | error e => rw [hbody] at h; simp at h
      | ok r =>
        rw [hbody] at h
        simp only [] at h
        unfold createAIDraftBody findFirstDraft at hbody
        cases hff : db.failFind with
        | true => rw [hff] at hbody; simp at hbody
        | false =>
          rw [hff] at hbody
          simp only [Bool.false_eq_true, if_false] at hbody
          cases hfind : db.drafts.find?
              (draftKeyMatches data.sourceUrl data.crawlSourceId) with
          | some y =>
            rw [hfind] at hbody
            simp only [Except.ok.injEq] at hbody
            rw [← hbody] at h
            simp at h
          | none =>
            rw [hfind] at hbody
            simp only [] at hbody
            unfold createDraftRec at hbody
            cases hfc : db.failCreate with
            | true => rw [hfc] at hbody; simp at hbody
            | false =>
              rw [hfc] at hbody
              simp only [Bool.false_eq_true, if_false, Except.ok.injEq] at hbody
              rw [← hbody] at h
              have h2 := congrArg Prod.snd h
              simp only [] at h2
              refine ⟨listing, rfl, rfl, rfl, rfl, rfl, ?_⟩
              rw [← h2]
              simp [hff, hfc]

/-- C3: first-write-wins dedup of the materializer.  If a draft with the same
`(sourceUrl, crawlSourceId)` already exists, `createAIDraft` reports `false`
and leaves the store untouched; and immediately after a call that created a
draft, re-running the same call reports `false` and leaves the store
untouched — so re-running a Listing job against an unchanged page creates no
duplicate drafts. -/
theorem createAIDraft_first_write_wins (now now2 : Time) (db : DraftDB)
    (data : AIDraftCreationData) :
    ((∃ d, d ∈ db.drafts ∧ d.sourceUrl = data.sourceUrl ∧
        d.crawlSourceId = data.crawlSourceId) →
      createAIDraft now db data = (false, db)) ∧
    (∀ db2, createAIDraft now db data = (true, db2) →
      createAIDraft now2 db2 data = (false, db2)) := by
  constructor
  · rintro ⟨d, hd, hurl, hcid⟩
    unfold createAIDraft
    cases hl : data.listing with
    | none => rfl
    | some listing =>
      cases hguard : (data.crawlSourceId.isEmpty || data.sourceUrl.isEmpty) with
      | true => simp [hguard]
      | false =>
        simp only [hguard, Bool.false_eq_true, if_false]
        cases hfind : db.drafts.find?
            (draftKeyMatches data.sourceUrl data.crawlSourceId) with
        | none =>
          exfalso
          have hnone := List.find?_eq_none.mp hfind d hd
          simp [draftKeyMatches, hurl, hcid] at hnone
        | some y =>
          unfold createAIDraftBody findFirstDraft
          cases hff : db.failFind with
          | true => simp [hff]
          | false => simp [hff, hfind]
  · intro db2 h
    obtain ⟨listing, hl, hguard, hff, hfc, hfind, hdb2⟩ :=
      createAIDraft_true_elim now db data db2 h
    subst hdb2
    unfold createAIDraft
    rw [hl]
    simp only [hguard, Bool.false_eq_true, if_false]
    unfold createAIDraftBody findFirstDraft
    simp only [hff, Bool.false_eq_true, if_false]
    rw [List.find?_append, hfind]
    simp [draftKeyMatches, buildDraft]


/-- A listing entry fixture. -/
def exListing : Listing := { opportunity_id := "opp-1", title := some "T1" }

/-- A draft fixture whose natural key is source "s1" and the detail-page URL
of `exListing`. -/
def exDraft : Draft :=
  { title := "T", organization := "O", description := "D"
    requirements := [], benefits := [], compensation := ""
    compensationType := none, locations := [], isRemote := false
    deadline := 0, applicationUrl := "", contactEmail := ""
    experienceLevel := "any", duration := "", eligibility := []
    crawlSourceId := "s1", sourceUrl := "https://opportunitydesk.org/opp-1"
    status := .PENDING, isDetailsCrawled := false }

/-- A draft store already holding `exDraft`. -/
def exDraftDB : DraftDB := { drafts := [exDraft] }

/-- Materializer input carrying the same natural key as `exDraft`. -/
def exCreationData : AIDraftCreationData :=
  { listing := some exListing, details := none, crawlSourceId := "s1"
    sourceUrl := "https://opportunitydesk.org/opp-1", isDetailsCrawled := false }

/-- Witness: with `exDraft` already stored, the materializer reports `false`
and the store is untouched. -/
theorem createAIDraft_first_write_wins_witness :
    createAIDraft 0 exDraftDB exCreationData = (false, exDraftDB) :=
  (createAIDraft_first_write_wins 0 0 exDraftDB exCreationData).1
    ⟨exDraft, by decide, by decide, by decide⟩

/-- Detail record fixture for `exListing`. -/
def exDetails : OpportunityDetails :=
  { id := "opp-1", title := "T", organization := "O", description := "D"
    requirements := [], benefits := [], locations := [], isRemote := false
    deadline := "2026-01-30", eligibility := [] }

/-- Cached listing batch fixture under key "k". -/
def exCachedData : CachedListingData :=
  { listings := [exListing], timestamp := 1, crawlSourceId := "s1"
    url := "https://opportunitydesk.org/category/all"
    crawlSource := { id := "s1", isDetailsCrawled := true } }

/-- Detail job fixture reading the "k" cache entry. -/
def exDetailJob : DetailsCrawlJobData :=
  { crawlSourceId := "s1", opportunityId := "opp-1"
    scraperType := "OPPORTUNITY_FOR_AFRICANS", cacheKey := "k" }

/-- Pipeline state for the detail-job run: the cache is populated and the
draft already exists. -/
def exDetailState : PipelineState :=
  { sources := [exSource], db := exDraftDB, cache := [("k", exCachedData)],
    listingJobs := [], detailJobs := [] }

/-- C10: `createAIDraft` is total at its boundary — it reports `false` (and
never throws) when the listing is absent, when `crawlSourceId` or `sourceUrl`
is falsy, when the dedup lookup rejects, and when the insert rejects; and a
Detail job completes successfully with `aiDraftCreated = false` when no draft
was persisted (here: because the draft already existed). -/
theorem createAIDraft_total_boundary :
    (∀ (now : Time) (db : DraftDB) (data : AIDraftCreationData),
      data.listing = none → createAIDraft now db data = (false, db)) ∧
    (∀ (now : Time) (db : DraftDB) (data : AIDraftCreationData),
      (data.crawlSourceId.isEmpty || data.sourceUrl.isEmpty) = true →
      createAIDraft now db data = (false, db)) ∧
    (∀ (now : Time) (db : DraftDB) (data : AIDraftCreationData),
      db.failFind = true → createAIDraft now db data = (false, db)) ∧
    (∀ (now : Time) (db : DraftDB) (data : AIDraftCreationData),
      db.failCreate = true → (createAIDraft now db data).1 = false) ∧
    (processDetailsCrawl 0 exDetailJob (.ok exDetails) exDetailState).2 =
      .ok (exListing, exDetails, false) := by
  refine ⟨?_, ?_, ?_, ?_, ?_⟩
  · intro now db data h
    unfold createAIDraft
    rw [h]
  · intro now db data h
    unfold createAIDraft
    cases hl : data.listing with
    | none => rfl
    | some listing => simp [h]
  · intro now db data h
    unfold createAIDraft
    cases hl : data.listing with
    | none => rfl
    | some listing =>
      cases hguard : (data.crawlSourceId.isEmpty || data.sourceUrl.isEmpty) with
      | true => simp
      | false =>
        simp only [Bool.false_eq_true, if_false]
        unfold createAIDraftBody findFirstDraft
        rw [h]
        simp
  · intro now db data h
    unfold createAIDraft
    cases hl : data.listing with
    | none => rfl
    | some listing =>
      cases hguard : (data.crawlSourceId.isEmpty || data.sourceUrl.isEmpty) with
      | true => simp
      | false =>
        simp only [Bool.false_eq_true, if_false]
        unfold createAIDraftBody findFirstDraft
        cases hff : db.failFind with
        | true => simp
        | false =>
          simp only [Bool.false_eq_true, if_false]
          cases hfind : db.drafts.find?
              (draftKeyMatches data.sourceUrl data.crawlSourceId) with
          | some y => simp
          | none =>
            unfold createDraftRec
            rw [h]
            simp
  · rfl

/-- An empty draft store. -/
def exEmptyDB : DraftDB := { drafts := [] }

/-- A store whose dedup lookup rejects. -/
def exFailFindDB : DraftDB := { drafts := [], failFind := true }

/-- A store whose insert rejects. -/
def exFailCreateDB : DraftDB := { drafts := [], failCreate := true }

/-- Materializer input with the listing absent. -/
def exNoListingData : AIDraftCreationData :=
  { listing := none, crawlSourceId := "s1"
    sourceUrl := "https://opportunitydesk.org/opp-1", isDetailsCrawled := false }

/-- Witness for the boundary theorem at concrete failing stores. -/
theorem createAIDraft_total_boundary_witness :
    createAIDraft 0 exEmptyDB exNoListingData = (false, exEmptyDB) ∧
    createAIDraft 0 exFailFindDB exCreationData = (false, exFailFindDB) ∧
    (createAIDraft 0 exFailCreateDB exCreationData).1 = false :=
  ⟨createAIDraft_total_boundary.1 0 exEmptyDB exNoListingData rfl,
   createAIDraft_total_boundary.2.2.1 0 exFailFindDB exCreationData rfl,
   createAIDraft_total_boundary.2.2.2.1 0 exFailCreateDB exCreationData rfl⟩

-- ─────────────────────────────────────────────────────────────────────────────
-- Sweep machinery: closed forms of `scheduleLoop`
-- ─────────────────────────────────────────────────────────────────────────────

/-- The Listing jobs the sweep enqueues for the due sources, in order. -/
def sweepJobList (rands : Nat → ℚ) : List CrawlSource → Nat → List QueuedListingJob
  | [], _ => []
  | s :: rest, i =>
    queueListingCrawl
      { crawlSourceId := s.id, url := s.url, scraperType := s.scraperType }
      { priority := some 5, delay := some (rands i * 30000) } ::
    sweepJobList rands rest (i + 1)

/-- Sequential effect of the sweep's per-source `nextCrawlAt` updates on one
record. -/
def applyChain (now : Time) : List CrawlSource → CrawlSource → CrawlSource
  | [], t => t
  | s :: rest, t =>
    applyChain now rest
      (if t.id == s.id then
        { t with nextCrawlAt := calculateNextCrawlTime now s.frequency }
      else t)

/-- Closed form of `scheduleLoop`. -/
theorem scheduleLoop_spec (now : Time) (rands : Nat → ℚ) :
    ∀ (due : List CrawlSource) (i : Nat) (st : PipelineState),
    scheduleLoop now rands due i st =
      ({ st with
          listingJobs := st.listingJobs ++ sweepJobList rands due i,
          sources := st.sources.map (applyChain now due) },
       due.length) := by
  intro due
  induction due with
  | nil =>
    intro i st
    simp [scheduleLoop, sweepJobList, applyChain]
  | cons s rest ih =>
    intro i st
    simp only [scheduleLoop, sweepJobList]
    rw [ih]
    simp [updateSourceById, List.map_map, Function.comp, applyChain,
      List.length_cons]

/-- The `applyChain` fixes a record whose id none of the updates targets. -/
theorem applyChain_id_of_not_mem (now : Time) :
    ∀ (due : List CrawlSource) (t : CrawlSource),
    (∀ s ∈ due, t.id ≠ s.id) → applyChain now due t = t := by
  intro due
  induction due with
  | nil => intro t _; rfl
  | cons s rest ih =>
    intro t h
    have hne : (t.id == s.id) = false :=
      beq_eq_false_iff_ne.mpr (h s (List.mem_cons_self s rest))
    simp only [applyChain, hne, Bool.false_eq_true, if_false]
    exact ih t (fun s2 hs2 => h s2 (List.mem_cons_of_mem s hs2))

/-- Pointwise effect of the sweep on a table with unique ids: every due
record's `nextCrawlAt` is advanced once, every other record is unchanged. -/
theorem applyChain_filter_pointwise (now : Time) (p : CrawlSource → Bool) :
    ∀ (l : List CrawlSource), (l.map (fun s => s.id)).Nodup →
    ∀ t ∈ l, applyChain now (l.filter p) t =
      (if p t then { t with nextCrawlAt := calculateNextCrawlTime now t.frequency }
       else t) := by
  intro l
  induction l with
  | nil => intro _ t ht; cases ht
  | cons a l ih =>
    intro hN t ht
    have hNa : a.id ∉ l.map (fun s => s.id) := (List.nodup_cons.mp hN).1
    have hNl : (l.map (fun s => s.id)).Nodup := (List.nodup_cons.mp hN).2
    rcases List.mem_cons.mp ht with rfl | htl
    · cases hpa : p t with
      | true =>
        rw [List.filter_cons_of_pos hpa]
        simp only [applyChain, beq_self_eq_true, if_true]
        rw [applyChain_id_of_not_mem now _ _ (by
          intro s hs he
          have hmem : s.id ∈ List.map (fun x => x.id) l :=
            List.mem_map_of_mem _ (List.mem_of_mem_filter hs)
          rw [← he] at hmem
          exact hNa hmem)]
      | false =>
        rw [List.filter_cons_of_neg (by simp [hpa])]
        rw [applyChain_id_of_not_mem now _ _ (by
          intro s hs he
          have hmem : s.id ∈ List.map (fun x => x.id) l :=
            List.mem_map_of_mem _ (List.mem_of_mem_filter hs)
          rw [← he] at hmem
          exact hNa hmem)]
        simp [hpa]
    · have hne : (t.id == a.id) = false := by
        refine beq_eq_false_iff_ne.mpr ?_
        intro he
        exact hNa (he ▸ List.mem_map_of_mem (fun x => x.id) htl)
      cases hpa : p a with
      | true =>
        rw [List.filter_cons_of_pos hpa]
        simp only [applyChain, hne, Bool.false_eq_true, if_false]
        exact ih hNl t htl
      | false =>
        rw [List.filter_cons_of_neg (by simp [hpa])]
        exact ih hNl t htl

/-- Every sweep job is a priority-5 Listing job for some due source with a
jittered delay. -/
theorem sweepJobList_mem (rands : Nat → ℚ) :
    ∀ (due : List CrawlSource) (i : Nat) (j : QueuedListingJob),
    j ∈ sweepJobList rands due i →
    ∃ (s : CrawlSource) (k : Nat), j = queueListingCrawl
      { crawlSourceId := s.id, url := s.url, scraperType := s.scraperType }
      { priority := some 5, delay := some (rands k * 30000) } := by
  intro due
  induction due with
  | nil => intro i j hj; cases hj
  | cons s rest ih =>
    intro i j hj
    rcases List.mem_cons.mp hj with rfl | hj2
    · exact ⟨s, i, rfl⟩
    · exact ih (i + 1) j hj2

/-- Lengths and ids of the sweep job list. -/
theorem sweepJobList_length_ids (rands : Nat → ℚ) :
    ∀ (due : List CrawlSource) (i : Nat),
    (sweepJobList rands due i).length = due.length ∧
    (sweepJobList rands due i).map (fun j => j.data.crawlSourceId) =
      due.map (fun s => s.id) := by
  intro due
  induction due with
  | nil => intro i; exact ⟨rfl, rfl⟩
  | cons s rest ih =>
    intro i
    simp only [sweepJobList, List.length_cons, List.map_cons]
    exact ⟨by rw [(ih (i + 1)).1], by rw [(ih (i + 1)).2]; exact rfl⟩

/-- C8: one sweep queues exactly one Listing job per due source (active and
`nextCrawlAt ≤ now`), each with priority 5 and a delay in `[0, 30s)`, returns
`jobsQueued` equal to the number of due sources, and advances each due
source's `nextCrawlAt` by its frequency at enqueue time, leaving the other
sources untouched. -/
theorem scheduleRecurringCrawls_spec (now : Time) (rands : Nat → ℚ)
    (st : PipelineState)
    (hrand : ∀ i, 0 ≤ rands i ∧ rands i < 1)
    (hids : (st.sources.map (fun s => s.id)).Nodup) :
    (scheduleRecurringCrawls now rands st).2 =
      (st.sources.filter (isDue now)).length ∧
    (scheduleRecurringCrawls now rands st).1.listingJobs =
      st.listingJobs ++ sweepJobList rands (st.sources.filter (isDue now)) 0 ∧
    (sweepJobList rands (st.sources.filter (isDue now)) 0).length =
      (st.sources.filter (isDue now)).length ∧
    (sweepJobList rands (st.sources.filter (isDue now)) 0).map
        (fun j => j.data.crawlSourceId) =
      (st.sources.filter (isDue now)).map (fun s => s.id) ∧
    (∀ j ∈ sweepJobList rands (st.sources.filter (isDue now)) 0,
      j.priority = 5 ∧ 0 ≤ j.delay ∧ j.delay < 30000) ∧
    (scheduleRecurringCrawls now rands st).1.sources =
      st.sources.map (fun s =>
        if isDue now s then
          { s with nextCrawlAt := calculateNextCrawlTime now s.frequency }
        else s) := by
  unfold scheduleRecurringCrawls
  rw [scheduleLoop_spec]
  refine ⟨rfl, rfl, (sweepJobList_length_ids rands _ 0).1,
    (sweepJobList_length_ids rands _ 0).2, ?_, ?_⟩
  · intro j hj
    obtain ⟨s, k, rfl⟩ := sweepJobList_mem rands _ 0 j hj
    refine ⟨rfl, ?_, ?_⟩
    · have h0 : (0 : ℚ) ≤ rands k := (hrand k).1
      have : (0 : ℚ) ≤ rands k * 30000 := by positivity
      simpa [queueListingCrawl] using this
    · have h1 : rands k < 1 := (hrand k).2
      have : rands k * 30000 < 1 * 30000 := by
        exact mul_lt_mul_of_pos_right h1 (by norm_num)
      simp only [one_mul] at this
      simpa [queueListingCrawl] using this
  · exact List.map_congr_left (applyChain_filter_pointwise now (isDue now)
      st.sources hids)

-- ─────────────────────────────────────────────────────────────────────────────
-- Listing jobs never touch nextCrawlAt
-- ─────────────────────────────────────────────────────────────────────────────

/-- The id/nextCrawlAt view of a source table. -/
def idNextView (sources : List CrawlSource) : List (String × Time) :=
  sources.map (fun s => (s.id, s.nextCrawlAt))

/-- The `updateSourceById` with an update that preserves id and `nextCrawlAt`
preserves the id/nextCrawlAt view. -/
theorem idNextView_updateSourceById (l : List CrawlSource) (id : String)
    (f : CrawlSource → CrawlSource)
    (hf : ∀ s, (f s).id = s.id ∧ (f s).nextCrawlAt = s.nextCrawlAt) :
    idNextView (updateSourceById l id f) = idNextView l := by
  unfold idNextView updateSourceById
  rw [List.map_map]
  apply List.map_congr_left
  intro a _
  cases h : (a.id == id) with
  | true => simp [Function.comp, h, (hf a).1, (hf a).2]
  | false => simp [Function.comp, h]

/-- The fallible body of a Listing job preserves every source's
`nextCrawlAt`. -/
theorem processListingBody_idNextView (now : Time)
    (jobData : ListingCrawlJobData) (outcome : Except String ScrapingResult)
    (rands : Nat → ℚ) (st : PipelineState) :
    idNextView (processListingBody now jobData outcome rands st).1.sources =
      idNextView st.sources := by
  unfold processListingBody
  cases hfind : findSource st.sources jobData.crawlSourceId with
  | none => rfl
  | some crawlSource =>
    simp only []
    have h1 : idNextView (updateSourceById st.sources jobData.crawlSourceId
        (updateCrawlSourceStatusFields now .ACTIVE)) = idNextView st.sources :=
      idNextView_updateSourceById _ _ _ (fun s => ⟨rfl, rfl⟩)
    cases getScraperE jobData.scraperType with
    | error e => exact h1
    | ok scraper =>
      cases outcome with
      | error e => exact h1
      | ok result =>
        simp only []
        split
        · exact h1
        · simp only []
          rw [idNextView_updateSourceById _ jobData.crawlSourceId
            (updateCrawlSourceSuccessFields now crawlSource result.total_found)
            (fun s => ⟨rfl, rfl⟩)]
          split
          · simp only [queueDetailsCrawlJobs]
            exact h1
          · exact h1

/-- A Listing job — success or failure — preserves every source's
`nextCrawlAt`. -/
theorem processListingCrawl_idNextView (now : Time)
    (jobData : ListingCrawlJobData) (outcome : Except String ScrapingResult)
    (rands : Nat → ℚ) (st : PipelineState) :
    idNextView (processListingCrawl now jobData outcome rands st).1.sources =
      idNextView st.sources := by
  unfold processListingCrawl
  cases hbody : processListingBody now jobData outcome rands st with
  | mk st1 out =>
    have h1 : idNextView st1.sources = idNextView st.sources := by
      have := processListingBody_idNextView now jobData outcome rands st
      rw [hbody] at this
      exact this
    cases out with
    | ok r => exact h1
    | error e =>
      simp only []
      rw [idNextView_updateSourceById _ jobData.crawlSourceId
        (updateCrawlSourceErrorFields e) (fun s => ⟨rfl, rfl⟩)]
      exact h1

/-- A second and third listing entry for the three-entry scenario. -/
def exListing2 : Listing := { opportunity_id := "opp-2", title := some "T2" }

/-- Third listing entry. -/
def exListing3 : Listing := { opportunity_id := "opp-3" }

/-- The Listing job for `exSource`. -/
def exJob : ListingCrawlJobData :=
  { crawlSourceId := "s1", url := "https://opportunitydesk.org/category/all"
    scraperType := "OPPORTUNITY_FOR_AFRICANS" }

/-- A successful extraction with three entries. -/
def exResult : ScrapingResult :=
  { success := true, opportunity_listings := [exListing, exListing2, exListing3]
    total_found := 3 }

/-- C1 counterexample: a successful Listing run over the WEEKLY source
`exSource` (3 entries found, status ends INACTIVE, `opportunitiesFound`
grows by 3) leaves `nextCrawlAt` at its old value 0, which is not
now + 7 days. -/
theorem weekly_success_nextCrawlAt_counterexample :
    (processListingCrawl 1000000 exJob (.ok exResult) (fun _ => 0) exState).2 =
      .ok exResult ∧
    (processListingCrawl 1000000 exJob (.ok exResult) (fun _ => 0)
      exState).1.sources.map (fun s => (s.status, s.opportunitiesFound,
        s.nextCrawlAt)) = [(.INACTIVE, some 8, 0)] ∧
    exSource.frequency = .WEEKLY ∧
    (0 : Int) ≠ 1000000 + 7 * 24 * 60 * 60 * 1000 := by
  refine ⟨rfl, by decide, rfl, by decide⟩

/-- C1 amended: no Listing-job transition (job start, success update, error
update) touches `nextCrawlAt`; it is advanced — by the frequency interval,
DAILY +1 day, WEEKLY +7 days, MONTHLY +30 days — only by the recurring sweep
at enqueue time. -/
theorem listing_success_leaves_nextCrawlAt (now : Time)
    (jobData : ListingCrawlJobData) (outcome : Except String ScrapingResult)
    (rands : Nat → ℚ) (st : PipelineState) :
    (idNextView (processListingCrawl now jobData outcome rands st).1.sources =
      idNextView st.sources) ∧
    (∀ s, (updateCrawlSourceSuccessFields now s 0 s).nextCrawlAt = s.nextCrawlAt) ∧
    ((st.sources.map (fun s => s.id)).Nodup →
      (scheduleRecurringCrawls now rands st).1.sources =
        st.sources.map (fun s =>
          if isDue now s then
            { s with nextCrawlAt := calculateNextCrawlTime now s.frequency }
          else s)) := by
  refine ⟨processListingCrawl_idNextView now jobData outcome rands st,
    fun s => rfl, fun hids => ?_⟩
  unfold scheduleRecurringCrawls
  rw [scheduleLoop_spec]
  exact List.map_congr_left (applyChain_filter_pointwise now (isDue now)
    st.sources hids)

/-- Witness for the amended C1 theorem: the concrete WEEKLY run keeps the
view, and the sweep at time 500 advances `nextCrawlAt` to 500 + 7 days. -/
theorem listing_success_leaves_nextCrawlAt_witness :
    (idNextView (processListingCrawl 1000000 exJob (.ok exResult) (fun _ => 0)
      exState).1.sources = idNextView exState.sources) ∧
    (scheduleRecurringCrawls 500 (fun _ => 0) exState).1.sources =
      exState.sources.map (fun s =>
        if isDue 500 s then
          { s with nextCrawlAt := calculateNextCrawlTime 500 s.frequency }
        else s) :=
  ⟨(listing_success_leaves_nextCrawlAt 1000000 exJob (.ok exResult)
      (fun _ => 0) exState).1,
   (listing_success_leaves_nextCrawlAt 500 exJob (.ok exResult)
      (fun _ => 0) exState).2.2 (by decide)⟩

/-- Witness for the sweep theorem at a concrete due source: one job is
queued and `nextCrawlAt` becomes 500 + 7 days. -/
theorem scheduleRecurringCrawls_spec_witness :
    (exState.sources.map (fun s => s.id)).Nodup ∧
    (scheduleRecurringCrawls 500 (fun _ => 0) exState).2 =
      (exState.sources.filter (isDue 500)).length ∧
    (scheduleRecurringCrawls 500 (fun _ => 0) exState).1.sources =
      exState.sources.map (fun s =>
        if isDue 500 s then
          { s with nextCrawlAt := calculateNextCrawlTime 500 s.frequency }
        else s) := by
  have h := scheduleRecurringCrawls_spec 500 (fun _ => 0) exState
    (fun i => ⟨le_refl 0, by norm_num⟩) (by decide)
  exact ⟨by decide, h.1, h.2.2.2.2.2⟩

-- ─────────────────────────────────────────────────────────────────────────────
-- Branch behaviour of a successful Listing job (C2) and its failure path (C4)
-- ─────────────────────────────────────────────────────────────────────────────

/-- One `createAIDraft` call appends at most one draft. -/
theorem createAIDraft_db_shape (now : Time) (db : DraftDB)
    (data : AIDraftCreationData) :
    (createAIDraft now db data).2.drafts = db.drafts ∨
    ∃ d, (createAIDraft now db data).2.drafts = db.drafts ++ [d] := by
  unfold createAIDraft
  cases hl : data.listing with
  | none => exact Or.inl rfl
  | some listing =>
    cases hguard : (data.crawlSourceId.isEmpty || data.sourceUrl.isEmpty) with
    | true => simp
    | false =>
      simp only [Bool.false_eq_true, if_false]
      unfold createAIDraftBody findFirstDraft
      cases hff : db.failFind with
      | true => simp
      | false =>
        simp only [Bool.false_eq_true, if_false]
        cases hfind : db.drafts.find?
            (draftKeyMatches data.sourceUrl data.crawlSourceId) with
        | some y => simp
        | none =>
          unfold createDraftRec
          cases hfc : db.failCreate with
          | true => simp
          | false =>
            simp only [Bool.false_eq_true, if_false]
            exact Or.inr ⟨_, rfl⟩

/-- The direct materialization loop adds at most one draft per listing. -/
theorem createAIDraftsFromListings_drafts_le (now : Time) :
    ∀ (listings : List Listing) (cid : String) (scraper : ScraperType)
      (db : DraftDB),
    (createAIDraftsFromListings now listings cid scraper db).2.drafts.length ≤
      db.drafts.length + listings.length := by
  intro listings
  induction listings with
  | nil => intro cid scraper db; simp [createAIDraftsFromListings]
  | cons l rest ih =>
    intro cid scraper db
    simp only [createAIDraftsFromListings]
    cases hc : createAIDraft now db
        { listing := some l, details := none, crawlSourceId := cid
          sourceUrl := constructOpportunityDetailsPage scraper l.opportunity_id
          isDetailsCrawled := false } with
    | mk created db1 =>
      simp only []
      have hdb1 : db1.drafts.length ≤ db.drafts.length + 1 := by
        rcases createAIDraft_db_shape now db
            { listing := some l, details := none, crawlSourceId := cid
              sourceUrl := constructOpportunityDetailsPage scraper l.opportunity_id
              isDetailsCrawled := false } with h | ⟨d, h⟩ <;>
          rw [hc] at h <;> simp only [] at h <;> simp [h]
      cases hr : createAIDraftsFromListings now rest cid scraper db1 with
      | mk n db2 =>
        simp only []
        have := ih cid scraper db1
        rw [hr] at this
        simp only [] at this
        simp only [List.length_cons]
        omega

/-- The `updateSourceById` establishes a record property at the targeted id when
the update function forces it and preserves ids. -/
theorem mem_updateSourceById_prop (l : List CrawlSource) (id : String)
    (f : CrawlSource → CrawlSource) (P : CrawlSource → Prop)
    (_hid : ∀ t, (f t).id = t.id) (hP : ∀ t, P (f t)) :
    ∀ s ∈ updateSourceById l id f, s.id = id → P s := by
  intro s hs hsid
  unfold updateSourceById at hs
  rcases List.mem_map.mp hs with ⟨t, ht, rfl⟩
  cases h : (t.id == id) with
  | true => simp only [h, if_true]; exact hP t
  | false =>
    simp only [h, Bool.false_eq_true, if_false] at hsid ⊢
    exact absurd hsid (beq_eq_false_iff_ne.mp h)

/-- C2: a successful listing extraction with N ≥ 1 entries either queues
exactly one Detail job per entry — priority 5, jittered delay, all sharing
the cache key computed for this source and URL — and materializes nothing
directly, or (flag off) queues no Detail jobs and materializes at most N
drafts directly. -/
theorem processListingCrawl_branch_spec (now : Time)
    (jobData : ListingCrawlJobData) (rands : Nat → ℚ) (st : PipelineState)
    (crawlSource : CrawlSource) (scraper : ScraperType) (result : ScrapingResult)
    (hfind : findSource st.sources jobData.crawlSourceId = some crawlSource)
    (hscr : getScraperE jobData.scraperType = .ok scraper)
    (hsucc : result.success = true)
    (hne : result.opportunity_listings ≠ []) :
    ((processListingCrawl now jobData (.ok result) rands st).2 = .ok result) ∧
    (crawlSource.isDetailsCrawled = true →
      (processListingCrawl now jobData (.ok result) rands st).1.detailJobs =
        st.detailJobs ++ result.opportunity_listings.enum.map (fun p =>
          queueDetailsCrawl
            { crawlSourceId := jobData.crawlSourceId
              opportunityId := p.2.opportunity_id
              scraperType := jobData.scraperType
              cacheKey := buildCacheKey jobData.crawlSourceId jobData.url }
            { priority := some 5, delay := some (rands p.1 * 5000) }) ∧
      (processListingCrawl now jobData (.ok result) rands st).1.detailJobs.length =
        st.detailJobs.length + result.opportunity_listings.length ∧
      (processListingCrawl now jobData (.ok result) rands st).1.db.drafts =
        st.db.drafts) ∧
    (crawlSource.isDetailsCrawled = false →
      (processListingCrawl now jobData (.ok result) rands st).1.detailJobs =
        st.detailJobs ∧
      (processListingCrawl now jobData (.ok result) rands st).1.db.drafts.length ≤
        st.db.drafts.length + result.opportunity_listings.length) := by
  have hcond : ((!result.success || result.opportunity_listings.isEmpty) = true) =
      False := by
    simp [hsucc, hne]
  unfold processListingCrawl processListingBody
  rw [hfind]
  simp only []
  rw [hscr]
  simp only [hcond, if_false]
  refine ⟨by trivial, fun hidc => ?_, fun hidc => ?_⟩
  · rw [if_pos hidc]
    simp only [queueDetailsCrawlJobs]
    exact ⟨by trivial, by simp, by trivial⟩
  · rw [if_neg (by simp [hidc])]
    cases hdr : createAIDraftsFromListings now result.opportunity_listings
        jobData.crawlSourceId scraper st.db with
    | mk n db2 =>
      simp only []
      refine ⟨by trivial, ?_⟩
      have := createAIDraftsFromListings_drafts_le now
        result.opportunity_listings jobData.crawlSourceId scraper st.db
      rw [hdr] at this
      simpa using this

/-- The source with detail crawling enabled, and its state. -/
def exSourceD : CrawlSource := { exSource with isDetailsCrawled := true }

/-- Pipeline state holding only `exSourceD`. -/
def exStateD : PipelineState := { exState with sources := [exSourceD] }

/-- Witness for the branch theorem: the detail-crawled source queues one
Detail job per entry and creates no drafts. -/
theorem processListingCrawl_branch_spec_witness :
    (processListingCrawl 1000000 exJob (.ok exResult) (fun _ => 0)
      exStateD).2 = .ok exResult ∧
    (processListingCrawl 1000000 exJob (.ok exResult) (fun _ => 0)
      exStateD).1.detailJobs.length =
      exStateD.detailJobs.length + exResult.opportunity_listings.length ∧
    (processListingCrawl 1000000 exJob (.ok exResult) (fun _ => 0)
      exStateD).1.db.drafts = exStateD.db.drafts := by
  have h := processListingCrawl_branch_spec 1000000 exJob (fun _ => 0) exStateD
    exSourceD .OPPORTUNITY_FOR_AFRICANS exResult rfl rfl rfl (by decide)
  exact ⟨h.1, (h.2.1 rfl).2.1, (h.2.1 rfl).2.2⟩

/-- C4: a Listing job that fails — the scrape step throws, or the extraction
reports failure or zero entries — marks the owning source `ERROR` with the
failure message truncated to 500 characters (`slice(0, 500)`, hence at most
500 characters), and rethrows the error past the job boundary. -/
theorem processListingCrawl_failure_spec (now : Time)
    (jobData : ListingCrawlJobData) (rands : Nat → ℚ) (st : PipelineState)
    (crawlSource : CrawlSource) (scraper : ScraperType)
    (hfind : findSource st.sources jobData.crawlSourceId = some crawlSource)
    (hscr : getScraperE jobData.scraperType = .ok scraper) :
    (∀ m : String,
      (processListingCrawl now jobData (.error m) rands st).2 = .error m ∧
      ∀ s ∈ (processListingCrawl now jobData (.error m) rands st).1.sources,
        s.id = jobData.crawlSourceId →
        s.status = .ERROR ∧ s.errorMessage = some (strTake m 500)) ∧
    (∀ result : ScrapingResult,
      result.success = false ∨ result.opportunity_listings = [] →
      (processListingCrawl now jobData (.ok result) rands st).2 =
        .error (listingFailureMessage result) ∧
      ∀ s ∈ (processListingCrawl now jobData (.ok result) rands st).1.sources,
        s.id = jobData.crawlSourceId →
        s.status = .ERROR ∧
        s.errorMessage = some (strTake (listingFailureMessage result) 500)) ∧
    (∀ m : String, (strTake m 500).length ≤ 500) := by
  refine ⟨fun m => ?_, fun result hfail => ?_, fun m => ?_⟩
  · unfold processListingCrawl processListingBody
    rw [hfind]
    simp only []
    rw [hscr]
    simp only []
    refine ⟨by trivial, ?_⟩
    exact mem_updateSourceById_prop _ _ _ _
      (fun t => rfl)
      (fun t => ⟨rfl, rfl⟩)
  · have hcond : (!result.success || result.opportunity_listings.isEmpty) = true := by
      rcases hfail with h | h <;> simp [h]
    unfold processListingCrawl processListingBody
    rw [hfind]
    simp only []
    rw [hscr]
    simp only [hcond, if_true]
    refine ⟨by trivial, ?_⟩
    exact mem_updateSourceById_prop _ _ _ _
      (fun t => rfl)
      (fun t => ⟨rfl, rfl⟩)
  · have : (strTake m 500).length = min 500 m.toList.length := by
      simp [strTake, List.length_take]
    omega

/-- Witness for the failure theorem: a thrown scrape error "boom" marks
`exSource` ERROR with message "boom" and is rethrown. -/
theorem processListingCrawl_failure_spec_witness :
    (processListingCrawl 0 exJob (.error "boom") (fun _ => 0) exState).2 =
      .error "boom" ∧
    ∀ s ∈ (processListingCrawl 0 exJob (.error "boom") (fun _ => 0)
      exState).1.sources,
      s.id = "s1" → s.status = .ERROR ∧ s.errorMessage = some (strTake "boom" 500) :=
  (processListingCrawl_failure_spec 0 exJob (fun _ => 0) exState exSource
    .OPPORTUNITY_FOR_AFRICANS rfl rfl).1 "boom"

end Ambitful
